import Mathlib

/-!
Shallow embedding of the 2D-grid traversal core of the repository
(src/rust/src/util/point.rs, direction.rs, grid.rs, grid_iterator.rs)
together with theorems checking the specification's claims about it.

Coordinates use `Int` for the Rust `i32` values; no arithmetic in the
claims comes near the i32 overflow boundary, so plain integers model the
source faithfully. Rust methods that mutate `self` are embedded as
functions returning the updated iterator state; the grid, borrowed by the
Rust iterator, is passed explicitly to each operation. Loops that the
source runs until `have_next` becomes false are embedded with an explicit
fuel parameter; the termination development below shows a sufficient fuel
always exists, and that results are stable once the fuel is sufficient.
-/

/-- Embedding of struct `Point` (point.rs): immutable 2D integer vector. -/
structure Point where
  x : Int
  y : Int
deriving DecidableEq

/-- Embedding of `Point::new`. -/
def Point.new (x y : Int) : Point := ⟨x, y⟩

/-- Embedding of `Point::add`: component-wise addition. -/
def Point.add (p other : Point) : Point := ⟨p.x + other.x, p.y + other.y⟩

/-- Embedding of `Point::is_diagonal`: both components non-zero. -/
def Point.is_diagonal (p : Point) : Bool :=
  decide (p.x ≠ 0) && decide (p.y ≠ 0)

/-- Embedding of the `Point` constants (point.rs). -/
def Point.EMPTY : Point := ⟨0, 0⟩

def Point.LEFT : Point := ⟨-1, 0⟩

def Point.UP : Point := ⟨0, -1⟩

def Point.RIGHT : Point := ⟨1, 0⟩

def Point.DOWN : Point := ⟨0, 1⟩

def Point.RIGHT_DOWN : Point := ⟨1, 1⟩

def Point.RIGHT_UP : Point := ⟨1, -1⟩

def Point.LEFT_DOWN : Point := ⟨-1, 1⟩

def Point.LEFT_UP : Point := ⟨-1, -1⟩

/-- Embedding of enum `Direction` (direction.rs). -/
inductive Direction where
  | Right
  | Left
  | Up
  | Down
  | RightDown
  | RightUp
  | LeftDown
  | LeftUp
  | Stop
deriving DecidableEq

/-- Embedding of `Direction::to_point` (the wildcard arm of the source,
covering `Stop`, returns `Point::EMPTY`). -/
def Direction.to_point : Direction → Point
  | .Right => Point.RIGHT
  | .Left => Point.LEFT
  | .Up => Point.UP
  | .Down => Point.DOWN
  | .RightDown => Point.RIGHT_DOWN
  | .RightUp => Point.RIGHT_UP
  | .LeftDown => Point.LEFT_DOWN
  | .LeftUp => Point.LEFT_UP
  | .Stop => Point.EMPTY

/-- Embedding of `Direction::is_diagonal`. -/
def Direction.is_diagonal : Direction → Bool
  | .RightDown | .RightUp | .LeftDown | .LeftUp => true
  | _ => false

/-- Embedding of struct `Grid<T>` (grid.rs). -/
structure Grid (T : Type) where
  width : Int
  height : Int
  data : List T
deriving DecidableEq

variable {T : Type}

/-- Embedding of `Grid::new` (grid.rs lines 31-37): the `height` field is
set to `data.len()` (the source stores one element per row when used as a
row container, e.g. `Grid<Vec<char>>` in day04.rs). -/
def Grid.new (data : List T) (width : Int) : Grid T :=
  { width := width, height := (data.length : Int), data := data }

/-- Embedding of `Grid::get_starting_point` (grid.rs lines 57-67). -/
def Grid.get_starting_point (g : Grid T) : Direction → Point
  | .Right | .Down | .RightDown => Point.new 0 0
  | .Left | .Up | .LeftUp => Point.new (g.width - 1) (g.height - 1)
  | .RightUp => Point.new 0 (g.height - 1)
  | .LeftDown => Point.new (g.width - 1) 0
  | .Stop => Point.new 0 0

/-- Embedding of `Grid::exced_bounds` (grid.rs lines 97-121). The source
panics on the wildcard arm (`Stop` or any undefined direction); the value
`true` returned for `Stop` here is a junk value: every theorem below that
exercises bounds checking restricts itself to the 8 movement directions,
so the junk value is never relied upon. -/
def Grid.exced_bounds (g : Grid T) (current_point : Point) (direction : Direction)
    (chunk_size : Int) : Bool :=
  match direction with
  | .Right => decide (current_point.x + chunk_size ≥ g.width)
  | .Left => decide (current_point.x - chunk_size < 0)
  | .Up => decide (current_point.y - chunk_size < 0)
  | .Down => decide (current_point.y + chunk_size ≥ g.height)
  | .RightUp =>
      decide (current_point.x + chunk_size ≥ g.width) ||
      decide (current_point.y - chunk_size < 0)
  | .RightDown =>
      decide (current_point.x + chunk_size ≥ g.width) ||
      decide (current_point.y + chunk_size ≥ g.height)
  | .LeftUp =>
      decide (current_point.x - chunk_size < 0) ||
      decide (current_point.y - chunk_size < 0)
  | .LeftDown =>
      decide (current_point.x - chunk_size < 0) ||
      decide (current_point.y + chunk_size ≥ g.height)
  | .Stop => true

/-- Modelled from the spec: `Grid::contains` is not present under src/
(only described in spec sections 4.3 and 8): strict
`0 <= x < width` and `0 <= y < height`. -/
def Grid.contains (g : Grid T) (p : Point) : Bool :=
  decide (0 ≤ p.x) && decide (p.x < g.width) &&
  decide (0 ≤ p.y) && decide (p.y < g.height)

/-- Modelled from the spec: `Grid::get_value` is not present under src/.
Spec section 3: a cell equal to the element type's default value is
treated as logically empty and reported as none; the iterator doc
(grid_iterator.rs line 334) adds that an invalid / out-of-bounds position
is reported as none. Row-major indexed access. -/
def Grid.get_value [DecidableEq T] [Inhabited T] (g : Grid T) (p : Point) : Option T :=
  if g.contains p then
    match g.data.get? (p.y * g.width + p.x).toNat with
    | some v => if v = (default : T) then none else some v
    | none => none
  else none

/-- Embedding of struct `GridIterator` (grid_iterator.rs lines 27-36). The
`grid` field, a mutable borrow in the source, is passed explicitly to each
operation instead; the remaining fields are carried here. -/
structure GridIterator where
  line_start : Point
  current : Point
  direction : Direction
  offset : Int
  can_change_axis : Bool
  have_next : Bool
deriving DecidableEq

/-- Embedding of `GridIterator::new` (grid_iterator.rs lines 61-73). -/
def GridIterator.new (g : Grid T) (direction : Direction) (offset : Int) : GridIterator :=
  { line_start := g.get_starting_point direction
    current := g.get_starting_point direction
    direction := direction
    offset := offset
    can_change_axis := direction.is_diagonal
    have_next := true }

/-- Embedding of `GridIterator::brake` (grid_iterator.rs lines 450-453). -/
def GridIterator.brake (it : GridIterator) : Point × GridIterator :=
  (Point.EMPTY, { it with have_next := false })

/-- Embedding of `GridIterator::restore` (grid_iterator.rs lines 455-458). -/
def GridIterator.restore (it : GridIterator) (original_position : Point)
    (original_direction : Direction) : GridIterator :=
  { it with current := original_position, direction := original_direction }

/-- Embedding of `GridIterator::handle_one_direction`
(grid_iterator.rs lines 382-398). -/
def GridIterator.handle_one_direction (g : Grid T) (it : GridIterator)
    (next_step new_line : Direction) : Point × GridIterator :=
  match g.exced_bounds it.current next_step (it.offset + 1) with
  | false =>
      let c := it.current.add next_step.to_point
      (c, { it with current := c })
  | true =>
      match g.exced_bounds it.current new_line 1 with
      | true => it.brake
      | false =>
          let ls := it.line_start.add new_line.to_point
          (ls, { it with line_start := ls, current := ls })

/-- Embedding of `GridIterator::handle_diagonal_direction`
(grid_iterator.rs lines 410-448). -/
def GridIterator.handle_diagonal_direction (g : Grid T) (it : GridIterator)
    (next_step_direction new_line_direction : Direction) : Point × GridIterator :=
  match it.can_change_axis with
  | true =>
      let next_point := next_step_direction.to_point
      match g.exced_bounds (next_point.add it.line_start) next_step_direction it.offset with
      | false =>
          let ls := it.line_start.add next_point
          (ls, { it with line_start := ls, current := ls })
      | true =>
          let ls := (g.get_starting_point it.direction).add new_line_direction.to_point
          (ls, { it with line_start := ls, current := ls, can_change_axis := false })
  | false =>
      let new_line_point := new_line_direction.to_point
      match g.exced_bounds (new_line_point.add it.line_start) new_line_direction
          (it.offset - 1) with
      | true => it.brake
      | false =>
          let ls := it.line_start.add new_line_point
          (ls, { it with line_start := ls, current := ls })

/-- Embedding of `GridIterator::next` (grid_iterator.rs lines 88-116). -/
def GridIterator.next (g : Grid T) (it : GridIterator) (wrap_enabled : Bool) :
    Point × GridIterator :=
  match g.exced_bounds it.current it.direction it.offset with
  | false =>
      let c := it.current.add it.direction.to_point
      (c, { it with current := c })
  | true =>
      match wrap_enabled with
      | false => it.brake
      | true =>
          match it.direction with
          | .Right => it.handle_one_direction g .Right .Down
          | .Down => it.handle_one_direction g .Down .Right
          | .Left => it.handle_one_direction g .Left .Up
          | .Up => it.handle_one_direction g .Up .Left
          | .RightDown => it.handle_diagonal_direction g .Right .Down
          | .LeftDown => it.handle_diagonal_direction g .Left .Down
          | .RightUp => it.handle_diagonal_direction g .Right .Up
          | .LeftUp => it.handle_diagonal_direction g .Left .Up
          | .Stop => it.brake

/-- Embedding of `GridIterator::can_move` (grid_iterator.rs lines 366-370). -/
def GridIterator.can_move (g : Grid T) (it : GridIterator) (direction : Direction) : Bool :=
  !(g.exced_bounds it.current direction it.offset)

/-- The state transition of one wrap-enabled `next` call. -/
def GridIterator.stepW (g : Grid T) (it : GridIterator) : GridIterator :=
  (it.next g true).2

/-- The state transition of one bounded (non-wrap) `next` call. -/
def GridIterator.stepB (g : Grid T) (it : GridIterator) : GridIterator :=
  (it.next g false).2

/-- Iterated bounded stepping, for stating walk examples. -/
def GridIterator.boundedIter (g : Grid T) (n : Nat) (it : GridIterator) : GridIterator :=
  (fun s => GridIterator.stepB g s)^[n] it

/-- The list of positions a wrap scan dwells on: the `current` point at
each loop head while `have_next` holds, exactly as `count`, `count_with`
and `find` consume the iterator (grid_iterator.rs lines 204-216). -/
def GridIterator.scanTrace (g : Grid T) : Nat → GridIterator → List Point
  | 0, _ => []
  | fuel + 1, it =>
      if it.have_next then it.current :: GridIterator.scanTrace g fuel (it.stepW g)
      else []

/-- The loop of `GridIterator::count_with` (grid_iterator.rs lines 204-216),
with the direction unit vector `step` captured before the loop as in the
source, and explicit fuel. -/
def GridIterator.count_with_loop (g : Grid T) (f : Grid T → Point → Point → Int → Bool)
    (step : Point) : Nat → GridIterator → Int → Int × GridIterator
  | 0, it, acc => (acc, it)
  | fuel + 1, it, acc =>
      if it.have_next then
        let acc' := if f g it.current step it.offset then acc + 1 else acc
        GridIterator.count_with_loop g f step fuel (it.stepW g) acc'
      else (acc, it)

/-- Embedding of `GridIterator::count_with` (grid_iterator.rs lines 194-221). -/
def GridIterator.count_with (g : Grid T) (fuel : Nat)
    (f : Grid T → Point → Point → Int → Bool) (it : GridIterator) : Int × GridIterator :=
  let original_position := it.current
  let original_direction := it.direction
  let step := it.direction.to_point
  let r := GridIterator.count_with_loop g f step fuel it 0
  (r.1, r.2.restore original_position original_direction)

/-- The loop of `GridIterator::count` (grid_iterator.rs lines 239-251): the
cell value is read with `unwrap_or_default`. -/
def GridIterator.count_loop [DecidableEq T] [Inhabited T] (g : Grid T) (value : T) :
    Nat → GridIterator → Int → Int × GridIterator
  | 0, it, acc => (acc, it)
  | fuel + 1, it, acc =>
      if it.have_next then
        let val := (g.get_value it.current).getD (default : T)
        let acc' := if val = value then acc + 1 else acc
        GridIterator.count_loop g value fuel (it.stepW g) acc'
      else (acc, it)

/-- Embedding of `GridIterator::count` (grid_iterator.rs lines 233-256). -/
def GridIterator.count [DecidableEq T] [Inhabited T] (g : Grid T) (fuel : Nat) (value : T)
    (it : GridIterator) : Int × GridIterator :=
  let original_position := it.current
  let original_direction := it.direction
  let r := GridIterator.count_loop g value fuel it 0
  (r.1, r.2.restore original_position original_direction)

/-- The loop of `GridIterator::find` (grid_iterator.rs lines 290-303). The
source calls `unwrap()` on the current cell value and panics when the cell
is logically empty; the outer `none` models that panic (no result and no
restore happen in the source on that path). -/
def GridIterator.find_loop [DecidableEq T] [Inhabited T] (g : Grid T)
    (f : List T → T → Bool) (find : List T) :
    Nat → GridIterator → Option (Option (T × Point) × GridIterator)
  | 0, it => some (none, it)
  | fuel + 1, it =>
      if it.have_next then
        match g.get_value it.current with
        | none => none
        | some val =>
            if f find val then some (some (val, it.current), it)
            else GridIterator.find_loop g f find fuel (it.stepW g)
      else some (none, it)

/-- Embedding of `GridIterator::find` (grid_iterator.rs lines 281-307); the
outer `none` models the source panicking inside the loop. -/
def GridIterator.find [DecidableEq T] [Inhabited T] (g : Grid T) (fuel : Nat)
    (f : List T → T → Bool) (find : List T) (it : GridIterator) :
    Option (Option (T × Point) × GridIterator) :=
  let original_position := it.current
  let original_direction := it.direction
  match GridIterator.find_loop g f find fuel it with
  | none => none
  | some (result, s) => some (result, s.restore original_position original_direction)

/-- Spec-side predicate (claim C1 wording): a window of length `n` laid in
direction `d` starting at `p` fits inside the grid. -/
def Grid.windowFits (g : Grid T) (d : Direction) (p : Point) : Nat → Bool
  | 0 => true
  | n + 1 => g.contains p && g.windowFits d (p.add d.to_point) n

/-- Spec-side predicate (claim C1 wording): `p` is a valid start-of-window
position for a window of length `k` in direction `d`. -/
def Grid.validStart (g : Grid T) (d : Direction) (k : Int) (p : Point) : Bool :=
  g.windowFits d p k.toNat

/-- Consecutive integers: `n` values starting at `a`. -/
def intSegAux : Nat → Int → List Int
  | 0, _ => []
  | n + 1, a => a :: intSegAux n (a + 1)

/-- Integer segment `[a, b]` as a list, used to describe scan traces. -/
def intSeg (a b : Int) : List Int := intSegAux (b + 1 - a).toNat a

/-- One horizontal row of points with abscissas `[a, b]` at ordinate `y`. -/
def rowPts (a b y : Int) : List Point :=
  (intSeg a b).map (fun x => ⟨x, y⟩)

/-- The full expected visit list of a wrap scan in direction `Right` with
offset `k`: every row, restricted to window-start abscissas. -/
def rightFull (g : Grid T) (k : Int) : List Point :=
  (((intSeg 0 (g.height - 1)).map (fun y => rowPts 0 (g.width - k) y)).flatten)

/-- Expected remainder of a `Right` wrap scan from an iterator state. -/
def rightE (g : Grid T) (k : Int) (s : GridIterator) : List Point :=
  match s.have_next with
  | true =>
      rowPts s.current.x (g.width - k) s.current.y ++
        ((intSeg (s.current.y + 1) (g.height - 1)).map
          (fun y => rowPts 0 (g.width - k) y)).flatten
  | false => []

/-- Invariant of `Right` wrap-scan states reachable from a fresh iterator. -/
def rightInv (g : Grid T) (k : Int) (s : GridIterator) : Prop :=
  s.direction = .Right ∧ s.offset = k ∧
  s.line_start = ⟨0, s.current.y⟩ ∧
  0 ≤ s.current.x ∧ s.current.x ≤ g.width - k ∧
  0 ≤ s.current.y ∧ s.current.y < g.height

/-- Termination measure for a `Right` wrap scan. -/
def rightMu (g : Grid T) (k : Int) (s : GridIterator) : Nat :=
  match s.have_next with
  | true =>
      1 + (g.width - k - s.current.x).toNat +
        ((g.width - k).toNat + 2) * (g.height - 1 - s.current.y).toNat
  | false => 0

/-- Mirror map conjugating a `Left` scan into a `Right` scan on the same
grid (both coordinates reflected). -/
def mirrorLR (g : Grid T) (p : Point) : Point :=
  ⟨g.width - 1 - p.x, g.height - 1 - p.y⟩

/-- Transpose map conjugating a `Down` scan into a `Right` scan on the
transposed grid. -/
def transposePt (p : Point) : Point := ⟨p.y, p.x⟩

/-- Map conjugating an `Up` scan into a `Right` scan on the transposed
grid (transpose composed with reflection). -/
def upMap (g : Grid T) (p : Point) : Point :=
  ⟨g.height - 1 - p.y, g.width - 1 - p.x⟩

/-- Geometry-only transpose of a grid (iteration never reads `data`). -/
def Grid.transposed (g : Grid T) : Grid T :=
  { width := g.height, height := g.width, data := [] }

/-- State image under a point map, retargeting the direction. -/
def GridIterator.mapState (φ : Point → Point) (d : Direction) (s : GridIterator) :
    GridIterator :=
  { line_start := φ s.line_start
    current := φ s.current
    direction := d
    offset := s.offset
    can_change_axis := s.can_change_axis
    have_next := s.have_next }

/-- In-line progress still available before the current line or diagonal is
exhausted; one component of the wrap-scan termination measure. -/
def inLineRem (g : Grid T) (s : GridIterator) : Nat :=
  match s.direction with
  | .Right => (g.width - s.offset - s.current.x).toNat
  | .Left => (s.current.x - s.offset + 1).toNat
  | .Up => (s.current.y - s.offset + 1).toNat
  | .Down => (g.height - s.offset - s.current.y).toNat
  | .RightDown =>
      min (g.width - s.offset - s.current.x).toNat (g.height - s.offset - s.current.y).toNat
  | .RightUp =>
      min (g.width - s.offset - s.current.x).toNat (s.current.y - s.offset + 1).toNat
  | .LeftDown =>
      min (s.current.x - s.offset + 1).toNat (g.height - s.offset - s.current.y).toNat
  | .LeftUp =>
      min (s.current.x - s.offset + 1).toNat (s.current.y - s.offset + 1).toNat
  | .Stop => 0

/-- Lines or diagonals still ahead of the scan in the current phase; the
second component of the wrap-scan termination measure. -/
def slideRem (g : Grid T) (s : GridIterator) : Nat :=
  match s.direction with
  | .Right => (g.height - 1 - s.line_start.y).toNat
  | .Down => (g.width - 1 - s.line_start.x).toNat
  | .Left => s.line_start.y.toNat
  | .Up => s.line_start.x.toNat
  | .RightDown =>
      match s.can_change_axis with
      | true => (g.width - s.offset - 1 - s.line_start.x).toNat
      | false => (g.height - s.offset - s.line_start.y).toNat
  | .RightUp =>
      match s.can_change_axis with
      | true => (g.width - s.offset - 1 - s.line_start.x).toNat
      | false => (s.line_start.y - s.offset + 1).toNat
  | .LeftDown =>
      match s.can_change_axis with
      | true => (s.line_start.x - s.offset).toNat
      | false => (g.height - s.offset - s.line_start.y).toNat
  | .LeftUp =>
      match s.can_change_axis with
      | true => (s.line_start.x - s.offset).toNat
      | false => (s.line_start.y - s.offset + 1).toNat
  | .Stop => 0

/-- Weight constant of the wrap-scan termination measure. -/
def muBase (g : Grid T) (k : Int) : Nat :=
  g.width.toNat + g.height.toNat + k.natAbs

/-- Termination measure of the wrap scan, lexicographic in (phase, lines
remaining, in-line progress), flattened into one natural number. -/
def muW (g : Grid T) (s : GridIterator) : Nat :=
  match s.have_next with
  | true =>
      1 + inLineRem g s + (muBase g s.offset + 3) * slideRem g s +
        (muBase g s.offset + 3) * (muBase g s.offset + 3) *
          (match s.can_change_axis with | true => 1 | false => 0)
  | false => 0

/-- Termination measure of the bounded (non-wrap) walk. -/
def muB (g : Grid T) (s : GridIterator) : Nat :=
  match s.have_next with
  | true => 1 + inLineRem g s
  | false => 0

/-- Invariant of wrap-scan states reachable from a fresh iterator, by
direction; vacuous once the scan has halted. -/
def wrapInv (g : Grid T) (s : GridIterator) : Prop :=
  s.have_next = true →
    match s.direction with
    | .Right => s.line_start.x = 0 ∧ s.current.y = s.line_start.y
    | .Down => s.line_start.y = 0 ∧ s.current.x = s.line_start.x
    | .Left => s.line_start.x = g.width - 1 ∧ s.current.y = s.line_start.y
    | .Up => s.line_start.y = g.height - 1 ∧ s.current.x = s.line_start.x
    | .RightDown =>
        match s.can_change_axis with
        | true => s.line_start.y = 0
        | false => s.line_start.x = 0
    | .RightUp =>
        match s.can_change_axis with
        | true => s.line_start.y = g.height - 1
        | false => s.line_start.x = 0
    | .LeftDown =>
        match s.can_change_axis with
        | true => s.line_start.y = 0
        | false => s.line_start.x = g.width - 1
    | .LeftUp =>
        match s.can_change_axis with
        | true => s.line_start.y = g.height - 1
        | false => s.line_start.x = g.width - 1
    | .Stop => True

/-- Parse-error values of the modelled `Grid::parse` (spec section 6). -/
inductive ParseError where
  | widthInconsistent
  | conversionFailed
deriving DecidableEq

/-- Splitting a character list on a separator, keeping empty segments;
used by the modelled `Grid::parse` for lines and for delimited tokens. -/
def splitOnChar (sep : Char) : List Char → List (List Char)
  | [] => [[]]
  | c :: cs =>
      match splitOnChar sep cs with
      | [] => [[]]
      | r :: rs => if c = sep then [] :: r :: rs else (c :: r) :: rs

/-- Sequencing a list of optional values: `none` exactly when some element
is `none`. -/
def seqOpts : List (Option T) → Option (List T)
  | [] => some []
  | o :: os =>
      match o with
      | none => none
      | some t =>
          match seqOpts os with
          | none => none
          | some ts => some (t :: ts)

/-- Modelled from the spec: the tokenization step of `Grid::parse`
(spec section 6): with a delimiter each line is split on it and each token
converted via the element type's from-string capability; without one each
character is converted via its from-char capability. -/
def parseRows (fromTok : List Char → Option T) (fromChr : Char → Option T)
    (delimiter : Option Char) (text : List Char) : List (List (Option T)) :=
  (splitOnChar '\n' text).map fun line =>
    match delimiter with
    | some d => (splitOnChar d line).map fromTok
    | none => line.map fromChr

/-- Modelled from the spec: `Grid::parse` (spec section 6) is not present
under src/. Newline-separated text; fails recoverably when line widths are
inconsistent or a token fails conversion; on success the width is the
first line's element count and the height the number of lines. -/
def Grid.parse (fromTok : List Char → Option T) (fromChr : Char → Option T)
    (text : List Char) (delimiter : Option Char) : Except ParseError (Grid T) :=
  let rows := parseRows fromTok fromChr delimiter text
  let w := (rows.headD []).length
  if rows.all (fun r => r.length = w) then
    match seqOpts (rows.map seqOpts) with
    | some converted =>
        .ok { width := (w : Int), height := (rows.length : Int), data := converted.flatten }
    | none => .error .conversionFailed
  else .error .widthInconsistent

/-- A concrete 3x3 grid (three rows of three elements, mirroring the
`Grid<Vec<char>>` usage of day04.rs). -/
def demoGrid3 : Grid (List Int) := Grid.new [[1, 2, 3], [4, 5, 6], [7, 8, 9]] 3

/-- A concrete 1x1 grid. -/
def demoGrid1 : Grid (List Int) := Grid.new [[7]] 1

/-- A concrete 2x2 grid. -/
def demoGrid2 : Grid (List Int) := Grid.new [[1, 2], [3, 4]] 2

/-- A concrete 3x1 grid (one row of three elements). -/
def demoGridRow : Grid (List Int) := Grid.new [[1, 2, 3]] 3

/-- A concrete 3x3 grid with a flat row-major store of non-default cells,
for exercising the modelled `get_value`. -/
def demoFlat3 : Grid Int :=
  { width := 3, height := 3, data := [1, 2, 3, 4, 5, 6, 7, 8, 9] }

/-! ## Basic lemmas about the embedded operations -/

theorem bool_ext {a b : Bool} (h : a = true ↔ b = true) : a = b := by
  cases a <;> cases b <;> simp_all

theorem exced_right_iff (g : Grid T) (p : Point) (c : Int) :
    g.exced_bounds p .Right c = true ↔ g.width ≤ p.x + c := by
  simp [Grid.exced_bounds]

theorem exced_left_iff (g : Grid T) (p : Point) (c : Int) :
    g.exced_bounds p .Left c = true ↔ p.x - c < 0 := by
  simp [Grid.exced_bounds]

theorem exced_up_iff (g : Grid T) (p : Point) (c : Int) :
    g.exced_bounds p .Up c = true ↔ p.y - c < 0 := by
  simp [Grid.exced_bounds]

theorem exced_down_iff (g : Grid T) (p : Point) (c : Int) :
    g.exced_bounds p .Down c = true ↔ g.height ≤ p.y + c := by
  simp [Grid.exced_bounds]

theorem exced_rd_iff (g : Grid T) (p : Point) (c : Int) :
    g.exced_bounds p .RightDown c = true ↔ g.width ≤ p.x + c ∨ g.height ≤ p.y + c := by
  simp [Grid.exced_bounds]

theorem exced_ru_iff (g : Grid T) (p : Point) (c : Int) :
    g.exced_bounds p .RightUp c = true ↔ g.width ≤ p.x + c ∨ p.y - c < 0 := by
  simp [Grid.exced_bounds]

theorem exced_ld_iff (g : Grid T) (p : Point) (c : Int) :
    g.exced_bounds p .LeftDown c = true ↔ p.x - c < 0 ∨ g.height ≤ p.y + c := by
  simp [Grid.exced_bounds]

theorem exced_lu_iff (g : Grid T) (p : Point) (c : Int) :
    g.exced_bounds p .LeftUp c = true ↔ p.x - c < 0 ∨ p.y - c < 0 := by
  simp [Grid.exced_bounds]

theorem next_offset (g : Grid T) (it : GridIterator) (w : Bool) :
    ((it.next g w).2).offset = it.offset := by
  obtain ⟨ls, cur, d, k, cca, hn⟩ := it
  cases w <;> cases d <;> cases cca <;>
    simp only [GridIterator.next, GridIterator.handle_one_direction,
      GridIterator.handle_diagonal_direction, GridIterator.brake] <;>
    (repeat' split) <;> rfl

theorem next_direction (g : Grid T) (it : GridIterator) (w : Bool) :
    ((it.next g w).2).direction = it.direction := by
  obtain ⟨ls, cur, d, k, cca, hn⟩ := it
  cases w <;> cases d <;> cases cca <;>
    simp only [GridIterator.next, GridIterator.handle_one_direction,
      GridIterator.handle_diagonal_direction, GridIterator.brake] <;>
    (repeat' split) <;> rfl

theorem next_have_next_mono (g : Grid T) (it : GridIterator) (w : Bool)
    (h : it.have_next = false) : ((it.next g w).2).have_next = false := by
  obtain ⟨ls, cur, d, k, cca, hn⟩ := it
  subst h
  cases w <;> cases d <;> cases cca <;>
    simp only [GridIterator.next, GridIterator.handle_one_direction,
      GridIterator.handle_diagonal_direction, GridIterator.brake] <;>
    (repeat' split) <;> rfl

theorem stepW_offset (g : Grid T) (it : GridIterator) :
    (it.stepW g).offset = it.offset := next_offset g it true

theorem stepW_direction (g : Grid T) (it : GridIterator) :
    (it.stepW g).direction = it.direction := next_direction g it true

theorem count_with_loop_offset (g : Grid T) (f : Grid T → Point → Point → Int → Bool)
    (step : Point) : ∀ (fuel : Nat) (it : GridIterator) (acc : Int),
    ((GridIterator.count_with_loop g f step fuel it acc).2).offset = it.offset := by
  intro fuel
  induction fuel with
  | zero => intro it acc; rfl
  | succ n ih =>
      intro it acc
      simp only [GridIterator.count_with_loop]
      split
      · rw [ih]; exact stepW_offset g it
      · rfl

theorem count_loop_offset [DecidableEq T] [Inhabited T] (g : Grid T) (value : T) :
    ∀ (fuel : Nat) (it : GridIterator) (acc : Int),
    ((GridIterator.count_loop g value fuel it acc).2).offset = it.offset := by
  intro fuel
  induction fuel with
  | zero => intro it acc; rfl
  | succ n ih =>
      intro it acc
      simp only [GridIterator.count_loop]
      split
      · rw [ih]; exact stepW_offset g it
      · rfl

theorem find_loop_offset [DecidableEq T] [Inhabited T] (g : Grid T)
    (f : List T → T → Bool) (cand : List T) :
    ∀ (fuel : Nat) (it : GridIterator) (r : Option (T × Point)) (s : GridIterator),
    GridIterator.find_loop g f cand fuel it = some (r, s) → s.offset = it.offset := by
  intro fuel
  induction fuel with
  | zero =>
      intro it r s h
      simp only [GridIterator.find_loop] at h
      obtain ⟨h1, h2⟩ := Prod.mk.injEq .. ▸ Option.some.injEq .. ▸ h
      rw [← h2]
  | succ n ih =>
      intro it r s h
      simp only [GridIterator.find_loop] at h
      split at h
      · split at h
        · exact absurd h (by simp)
        · split at h
          · obtain ⟨h1, h2⟩ := Prod.mk.injEq .. ▸ Option.some.injEq .. ▸ h
            rw [← h2]
          · rw [ih (it.stepW g) r s h]; exact stepW_offset g it
      · obtain ⟨h1, h2⟩ := Prod.mk.injEq .. ▸ Option.some.injEq .. ▸ h
        rw [← h2]

/-! ## Claims about construction and simple queries -/

/-- Claim C5, counterexample: `Grid::new` with a flat 4-element vector and
width 2 yields height 4, not 4 / 2 = 2; the claim's division formula does
not match the source, which stores `data.len()` directly. -/
theorem grid_new_height_counterexample :
    (Grid.new ([0, 1, 2, 3] : List Int) 2).height ≠
      (([0, 1, 2, 3] : List Int).length : Int) / 2 := by decide

/-- Claim C5 (amended): `Grid::new(data, w)` returns a grid whose `width`
field equals `w` and whose `height` field equals `data.len()` (the number
of rows when each element is one row, as in the day04 usage). -/
theorem grid_new_fields (T : Type) (data : List T) (w : Int) :
    (Grid.new data w).width = w ∧ (Grid.new data w).height = (data.length : Int) :=
  ⟨rfl, rfl⟩

/-- Claim C8: `get_starting_point` returns exactly the corner of the
section 4.3 table for each of the 9 direction values, with the default
corner (0,0) for `Stop`. -/
theorem starting_point_matches_table (T : Type) (g : Grid T) :
    g.get_starting_point .Right = ⟨0, 0⟩ ∧
    g.get_starting_point .Down = ⟨0, 0⟩ ∧
    g.get_starting_point .RightDown = ⟨0, 0⟩ ∧
    g.get_starting_point .Left = ⟨g.width - 1, g.height - 1⟩ ∧
    g.get_starting_point .Up = ⟨g.width - 1, g.height - 1⟩ ∧
    g.get_starting_point .LeftUp = ⟨g.width - 1, g.height - 1⟩ ∧
    g.get_starting_point .RightUp = ⟨0, g.height - 1⟩ ∧
    g.get_starting_point .LeftDown = ⟨g.width - 1, 0⟩ ∧
    g.get_starting_point .Stop = ⟨0, 0⟩ :=
  ⟨rfl, rfl, rfl, rfl, rfl, rfl, rfl, rfl, rfl⟩

/-- Claim C10: for every direction `d`, `d.is_diagonal()` agrees with
`d.to_point().is_diagonal()`: the four diagonal variants map to unit
vectors with both components non-zero, the rest to vectors with at most
one non-zero component. -/
theorem direction_diagonal_agrees_with_point (d : Direction) :
    d.is_diagonal = (d.to_point).is_diagonal := by
  cases d <;> decide

/-- Claim C7, counterexample: with offset 2 on a 3x1 grid, the iterator at
(1,0) can step one cell right and stay in bounds, yet `can_move(Right)`
returns false, because `can_move` checks `offset` cells of clearance, not
one. -/
theorem can_move_counterexample :
    GridIterator.can_move demoGridRow
      ⟨⟨0, 0⟩, ⟨1, 0⟩, .Right, 2, false, true⟩ .Right = false ∧
    demoGridRow.contains (Point.add ⟨1, 0⟩ (Direction.to_point .Right)) = true := by
  decide

/-- Claim C7 (amended): for every movement direction `d`, `can_move(d)`
returns true exactly when `exced_bounds(current, d, offset)` is false,
i.e. when the cell `offset` steps away in direction `d` stays within the
bound checked for `d`; when `offset = 1` and the cursor is inside the
grid this coincides with "one step in `d` stays in bounds". The call
modifies neither the iterator nor the grid (it is a pure function of
both). -/
theorem can_move_checks_offset_clearance (T : Type) (g : Grid T) (it : GridIterator)
    (d : Direction) (hd : d ≠ .Stop) :
    GridIterator.can_move g it d = !(g.exced_bounds it.current d it.offset) ∧
    (it.offset = 1 → g.contains it.current = true →
      GridIterator.can_move g it d = g.contains (it.current.add d.to_point)) := by
  refine ⟨rfl, ?_⟩
  intro h1 hc
  simp only [Grid.contains, Bool.and_eq_true, decide_eq_true_eq] at hc
  cases d <;>
    first
      | (exact absurd rfl hd)
      | (apply bool_ext
         simp only [GridIterator.can_move, Grid.exced_bounds, Grid.contains, h1,
           Direction.to_point, Point.add, Point.RIGHT, Point.LEFT, Point.UP, Point.DOWN,
           Point.RIGHT_DOWN, Point.RIGHT_UP, Point.LEFT_DOWN, Point.LEFT_UP,
           Bool.not_eq_true', Bool.or_eq_true, Bool.and_eq_true, Bool.or_eq_false_iff,
           decide_eq_true_eq, decide_eq_false_iff_not]
         omega)

/-- Claim C3, counterexample: `count_with` does not preserve the entire
iteration state: on a fresh 1x1 iterator `have_next` is true before the
call and false after it (the scan exhausts the grid and `restore` puts
back only position and direction). -/
theorem count_with_state_counterexample :
    ((GridIterator.count_with demoGrid1 5 (fun _ _ _ _ => false)
        (GridIterator.new demoGrid1 .Right 1)).2).have_next ≠
      (GridIterator.new demoGrid1 .Right 1).have_next := by decide

/-- Claim C3 (amended): `count`, `count_with` and `find` restore the
cursor position and direction, and never touch the offset, so those three
components of the iteration state equal their pre-call values (for `find`,
on every call that returns); `line_start`, `can_change_axis` and
`have_next` are not restored — in particular a completed scan leaves
`have_next` false. -/
theorem scans_restore_position_direction_offset (T : Type) [DecidableEq T] [Inhabited T]
    (g : Grid T) (fuel : Nat) (f : Grid T → Point → Point → Int → Bool) (value : T)
    (pf : List T → T → Bool) (cand : List T) (it : GridIterator)
    (_hd : it.direction ≠ .Stop) :
    ((GridIterator.count_with g fuel f it).2.current = it.current ∧
     (GridIterator.count_with g fuel f it).2.direction = it.direction ∧
     (GridIterator.count_with g fuel f it).2.offset = it.offset) ∧
    ((GridIterator.count g fuel value it).2.current = it.current ∧
     (GridIterator.count g fuel value it).2.direction = it.direction ∧
     (GridIterator.count g fuel value it).2.offset = it.offset) ∧
    (∀ r s, GridIterator.find g fuel pf cand it = some (r, s) →
      s.current = it.current ∧ s.direction = it.direction ∧ s.offset = it.offset) := by
  refine ⟨⟨rfl, rfl, ?_⟩, ⟨rfl, rfl, ?_⟩, ?_⟩
  · exact count_with_loop_offset g f it.direction.to_point fuel it 0
  · exact count_loop_offset g value fuel it 0
  · intro r s h
    unfold GridIterator.find at h
    cases hfl : GridIterator.find_loop g pf cand fuel it with
    | none => rw [hfl] at h; exact absurd h (by simp)
    | some v =>
        obtain ⟨r0, s0⟩ := v
        rw [hfl] at h
        simp only [Option.some.injEq, Prod.mk.injEq] at h
        obtain ⟨h1, h2⟩ := h
        subst h2
        refine ⟨rfl, rfl, ?_⟩
        exact find_loop_offset g pf cand fuel it r0 s0 hfl

/-- Claim C3 witness: the amended theorem applied to a concrete 3x3 grid,
fresh Right iterator with offset 1, concrete predicate, value and
candidate list. -/
theorem scans_restore_position_direction_offset_witness :
    (GridIterator.new demoGrid3 .Right 1).direction ≠ .Stop ∧
    ((GridIterator.count_with demoGrid3 20 (fun _ _ _ _ => true)
        (GridIterator.new demoGrid3 .Right 1)).2.current =
      (GridIterator.new demoGrid3 .Right 1).current ∧
     (GridIterator.count_with demoGrid3 20 (fun _ _ _ _ => true)
        (GridIterator.new demoGrid3 .Right 1)).2.direction =
      (GridIterator.new demoGrid3 .Right 1).direction ∧
     (GridIterator.count_with demoGrid3 20 (fun _ _ _ _ => true)
        (GridIterator.new demoGrid3 .Right 1)).2.offset =
      (GridIterator.new demoGrid3 .Right 1).offset) :=
  ⟨by decide,
   (scans_restore_position_direction_offset (List Int) demoGrid3 20
      (fun _ _ _ _ => true) [0] (fun _ _ => false) []
      (GridIterator.new demoGrid3 .Right 1) (by decide)).1⟩

/-- Claim C4: `find`, `count` and `count_with` leave the iterator's
current position and its direction unchanged from before the call (for
`find`, on every call that returns — the source panics, without
returning, when a scanned cell holds the element default), regardless of
whether a match was found. Movement directions only: with direction
`Stop` the source panics inside `exced_bounds` before ever returning. -/
theorem scans_leave_position_direction_unchanged (T : Type) [DecidableEq T] [Inhabited T]
    (g : Grid T) (fuel : Nat) (f : Grid T → Point → Point → Int → Bool) (value : T)
    (pf : List T → T → Bool) (cand : List T) (it : GridIterator)
    (_hd : it.direction ≠ .Stop) :
    ((GridIterator.count_with g fuel f it).2.current = it.current ∧
     (GridIterator.count_with g fuel f it).2.direction = it.direction) ∧
    ((GridIterator.count g fuel value it).2.current = it.current ∧
     (GridIterator.count g fuel value it).2.direction = it.direction) ∧
    (∀ r s, GridIterator.find g fuel pf cand it = some (r, s) →
      s.current = it.current ∧ s.direction = it.direction) := by
  refine ⟨⟨rfl, rfl⟩, ⟨rfl, rfl⟩, ?_⟩
  intro r s h
  unfold GridIterator.find at h
  cases hfl : GridIterator.find_loop g pf cand fuel it with
  | none => rw [hfl] at h; exact absurd h (by simp)
  | some v =>
      obtain ⟨r0, s0⟩ := v
      rw [hfl] at h
      simp only [Option.some.injEq, Prod.mk.injEq] at h
      obtain ⟨h1, h2⟩ := h
      subst h2
      exact ⟨rfl, rfl⟩

/-- Claim C4 witness: the theorem applied to a concrete 3x3 grid and a
fresh Right iterator, including a `find` call that returns. -/
theorem scans_leave_position_direction_unchanged_witness :
    (GridIterator.new demoFlat3 .Right 1).direction ≠ .Stop ∧
    (GridIterator.find demoFlat3 20 (fun _ _ => false) []
      (GridIterator.new demoFlat3 .Right 1)).isSome = true ∧
    ((GridIterator.count demoFlat3 20 (0 : Int)
        (GridIterator.new demoFlat3 .Right 1)).2.current =
      (GridIterator.new demoFlat3 .Right 1).current ∧
     (GridIterator.count demoFlat3 20 (0 : Int)
        (GridIterator.new demoFlat3 .Right 1)).2.direction =
      (GridIterator.new demoFlat3 .Right 1).direction) :=
  ⟨by decide, by decide,
   (scans_leave_position_direction_unchanged Int demoFlat3 20
      (fun _ _ _ _ => true) 0 (fun _ _ => false) []
      (GridIterator.new demoFlat3 .Right 1) (by decide)).2.1⟩

/-- Claim C2, counterexample: `next(false)` does not halt exactly when a
one-cell step would exceed the grid. On a 3x1 grid with direction Right
and offset 2, the iterator at (1,0) could step one cell right to (2,0)
and stay inside the grid, yet the bounded call halts immediately: it sets
`have_next` to false, returns the zero point and does not move the
cursor, because `next` consults `exced_bounds(current, direction, offset)`
with the stored offset 2, not the one-cell step. -/
theorem bounded_next_counterexample :
    demoGridRow.contains (Point.add ⟨1, 0⟩ (Direction.to_point .Right)) = true ∧
    GridIterator.next demoGridRow
        (⟨⟨0, 0⟩, ⟨1, 0⟩, .Right, 2, false, true⟩ : GridIterator) false =
      (Point.EMPTY, ⟨⟨0, 0⟩, ⟨1, 0⟩, .Right, 2, false, false⟩) := by decide

/-- Claim C2 (amended): for every iterator state with a movement direction
(with `Stop` the source panics inside `exced_bounds`), `next(false)`
either steps exactly one cell in the current direction or halts
immediately — `have_next` set to false, the zero point returned, the
cursor not moved — and the halting condition is
`exced_bounds(current, direction, offset)` with the stored offset, which
coincides with "a one-cell step would leave the grid" only when
`offset = 1` (and the cursor is inside the grid); on the concrete 3x3
grid with direction Right and offset 1, bounded mode advances twice along
the row and the third call halts at the right edge, while the wrap scan
visits all 9 cells, each exactly once, before halting. -/
theorem bounded_next_dichotomy_and_3x3_example :
    (∀ (T : Type) (g : Grid T) (it : GridIterator), it.direction ≠ .Stop →
      (g.exced_bounds it.current it.direction it.offset = false →
        it.next g false =
          (it.current.add it.direction.to_point,
           { it with current := it.current.add it.direction.to_point })) ∧
      (g.exced_bounds it.current it.direction it.offset = true →
        it.next g false = (Point.EMPTY, { it with have_next := false })) ∧
      (it.offset = 1 → g.contains it.current = true →
        g.exced_bounds it.current it.direction it.offset =
          !(g.contains (it.current.add it.direction.to_point)))) ∧
    ((GridIterator.boundedIter demoGrid3 1 (GridIterator.new demoGrid3 .Right 1)).current
        = ⟨1, 0⟩ ∧
     (GridIterator.boundedIter demoGrid3 1 (GridIterator.new demoGrid3 .Right 1)).have_next
        = true ∧
     (GridIterator.boundedIter demoGrid3 2 (GridIterator.new demoGrid3 .Right 1)).current
        = ⟨2, 0⟩ ∧
     (GridIterator.boundedIter demoGrid3 2 (GridIterator.new demoGrid3 .Right 1)).have_next
        = true ∧
     ((GridIterator.boundedIter demoGrid3 2 (GridIterator.new demoGrid3 .Right 1)).next
        demoGrid3 false).1 = Point.EMPTY ∧
     (GridIterator.boundedIter demoGrid3 3 (GridIterator.new demoGrid3 .Right 1)).current
        = ⟨2, 0⟩ ∧
     (GridIterator.boundedIter demoGrid3 3 (GridIterator.new demoGrid3 .Right 1)).have_next
        = false) ∧
    (GridIterator.scanTrace demoGrid3 20 (GridIterator.new demoGrid3 .Right 1) =
      [⟨0, 0⟩, ⟨1, 0⟩, ⟨2, 0⟩, ⟨0, 1⟩, ⟨1, 1⟩, ⟨2, 1⟩, ⟨0, 2⟩, ⟨1, 2⟩, ⟨2, 2⟩]) := by
  refine ⟨?_, by decide, by decide⟩
  intro T g it hd
  refine ⟨?_, ?_, ?_⟩
  · intro h
    simp only [GridIterator.next, h]
  · intro h
    simp only [GridIterator.next, h, GridIterator.brake]
  · intro h1 hc
    obtain ⟨ls, cur, d, k, cca, hn⟩ := it
    have hk1 : k = 1 := h1
    subst hk1
    simp only [Grid.contains, Bool.and_eq_true, decide_eq_true_eq] at hc
    cases d <;>
      first
        | (exact absurd rfl hd)
        | (apply bool_ext
           simp only [Grid.exced_bounds, Grid.contains, Direction.to_point, Point.add,
             Point.RIGHT, Point.LEFT, Point.UP, Point.DOWN, Point.RIGHT_DOWN,
             Point.RIGHT_UP, Point.LEFT_DOWN, Point.LEFT_UP, Bool.not_eq_true',
             Bool.not_eq_false', Bool.or_eq_true, Bool.and_eq_true, Bool.or_eq_false_iff,
             Bool.and_eq_false_iff, decide_eq_true_eq, decide_eq_false_iff_not]
           omega)

/-- Claim C2 witness: the bounded-step dichotomy applied at the
counterexample's state — 3x1 grid, cursor (1,0), direction Right,
offset 2 — where the very first bounded call halts even though a one-cell
step would stay inside the grid. -/
theorem bounded_next_dichotomy_witness :
    GridIterator.next demoGridRow
        (⟨⟨0, 0⟩, ⟨1, 0⟩, .Right, 2, false, true⟩ : GridIterator) false =
      (Point.EMPTY,
       { (⟨⟨0, 0⟩, ⟨1, 0⟩, .Right, 2, false, true⟩ : GridIterator) with
           have_next := false }) :=
  ((bounded_next_dichotomy_and_3x3_example.1 (List Int) demoGridRow
      (⟨⟨0, 0⟩, ⟨1, 0⟩, .Right, 2, false, true⟩ : GridIterator)
      (by decide)).2.1 (by decide))

/-- Claim C7 witness: the amended theorem applied to a concrete flat 3x3
grid and a fresh Right iterator with offset 1. -/
theorem can_move_checks_offset_clearance_witness :
    GridIterator.can_move demoFlat3 (GridIterator.new demoFlat3 .Right 1) .Right =
      !(demoFlat3.exced_bounds (GridIterator.new demoFlat3 .Right 1).current .Right
        (GridIterator.new demoFlat3 .Right 1).offset) ∧
    GridIterator.can_move demoFlat3 (GridIterator.new demoFlat3 .Right 1) .Right =
      demoFlat3.contains ((GridIterator.new demoFlat3 .Right 1).current.add
        (Direction.to_point .Right)) := by
  have h := can_move_checks_offset_clearance Int demoFlat3
    (GridIterator.new demoFlat3 .Right 1) .Right (by decide)
  exact ⟨h.1, h.2 rfl (by decide)⟩

theorem exced_right_false (g : Grid T) (p : Point) (c : Int) :
    g.exced_bounds p .Right c = false ↔ p.x + c < g.width := by
  simp [Grid.exced_bounds]

theorem exced_left_false (g : Grid T) (p : Point) (c : Int) :
    g.exced_bounds p .Left c = false ↔ 0 ≤ p.x - c := by
  simp [Grid.exced_bounds]

theorem exced_up_false (g : Grid T) (p : Point) (c : Int) :
    g.exced_bounds p .Up c = false ↔ 0 ≤ p.y - c := by
  simp [Grid.exced_bounds]

theorem exced_down_false (g : Grid T) (p : Point) (c : Int) :
    g.exced_bounds p .Down c = false ↔ p.y + c < g.height := by
  simp [Grid.exced_bounds]

theorem exced_rd_false (g : Grid T) (p : Point) (c : Int) :
    g.exced_bounds p .RightDown c = false ↔ p.x + c < g.width ∧ p.y + c < g.height := by
  simp [Grid.exced_bounds]

theorem exced_ru_false (g : Grid T) (p : Point) (c : Int) :
    g.exced_bounds p .RightUp c = false ↔ p.x + c < g.width ∧ 0 ≤ p.y - c := by
  simp [Grid.exced_bounds]

theorem exced_ld_false (g : Grid T) (p : Point) (c : Int) :
    g.exced_bounds p .LeftDown c = false ↔ 0 ≤ p.x - c ∧ p.y + c < g.height := by
  simp [Grid.exced_bounds]

theorem exced_lu_false (g : Grid T) (p : Point) (c : Int) :
    g.exced_bounds p .LeftUp c = false ↔ 0 ≤ p.x - c ∧ 0 ≤ p.y - c := by
  simp [Grid.exced_bounds]

/-! ## Shape lemmas: complete case analyses of one wrap-enabled step -/

theorem stepW_right_shape (g : Grid T) (ls cur : Point) (k : Int) (cca : Bool) :
    (cur.x + k < g.width ∧
      GridIterator.stepW g ⟨ls, cur, .Right, k, cca, true⟩ =
        ⟨ls, ⟨cur.x + 1, cur.y⟩, .Right, k, cca, true⟩) ∨
    (g.width ≤ cur.x + k ∧ cur.y + 1 < g.height ∧
      GridIterator.stepW g ⟨ls, cur, .Right, k, cca, true⟩ =
        ⟨⟨ls.x, ls.y + 1⟩, ⟨ls.x, ls.y + 1⟩, .Right, k, cca, true⟩) ∨
    (g.width ≤ cur.x + k ∧ g.height ≤ cur.y + 1 ∧
      GridIterator.stepW g ⟨ls, cur, .Right, k, cca, true⟩ =
        ⟨ls, cur, .Right, k, cca, false⟩) := by
  by_cases h0 : cur.x + k < g.width
  · refine Or.inl ⟨h0, ?_⟩
    have hb : g.exced_bounds cur .Right k = false := (exced_right_false g cur k).mpr h0
    simp [GridIterator.stepW, GridIterator.next, hb, Direction.to_point, Point.RIGHT,
      Point.add]
  · by_cases h2 : cur.y + 1 < g.height
    · refine Or.inr (Or.inl ⟨by omega, h2, ?_⟩)
      have hb0 : g.exced_bounds cur .Right k = true := (exced_right_iff g cur k).mpr (by omega)
      have hb1 : g.exced_bounds cur .Right (k + 1) = true :=
        (exced_right_iff g cur (k + 1)).mpr (by omega)
      have hb2 : g.exced_bounds cur .Down 1 = false := (exced_down_false g cur 1).mpr h2
      simp [GridIterator.stepW, GridIterator.next, GridIterator.handle_one_direction,
        hb0, hb1, hb2, Direction.to_point, Point.DOWN, Point.add]
    · refine Or.inr (Or.inr ⟨by omega, by omega, ?_⟩)
      have hb0 : g.exced_bounds cur .Right k = true := (exced_right_iff g cur k).mpr (by omega)
      have hb1 : g.exced_bounds cur .Right (k + 1) = true :=
        (exced_right_iff g cur (k + 1)).mpr (by omega)
      have hb2 : g.exced_bounds cur .Down 1 = true := (exced_down_iff g cur 1).mpr (by omega)
      simp [GridIterator.stepW, GridIterator.next, GridIterator.handle_one_direction,
        hb0, hb1, hb2, GridIterator.brake]

theorem stepW_left_shape (g : Grid T) (ls cur : Point) (k : Int) (cca : Bool) :
    (0 ≤ cur.x - k ∧
      GridIterator.stepW g ⟨ls, cur, .Left, k, cca, true⟩ =
        ⟨ls, ⟨cur.x - 1, cur.y⟩, .Left, k, cca, true⟩) ∨
    (cur.x - k < 0 ∧ 0 ≤ cur.y - 1 ∧
      GridIterator.stepW g ⟨ls, cur, .Left, k, cca, true⟩ =
        ⟨⟨ls.x, ls.y - 1⟩, ⟨ls.x, ls.y - 1⟩, .Left, k, cca, true⟩) ∨
    (cur.x - k < 0 ∧ cur.y - 1 < 0 ∧
      GridIterator.stepW g ⟨ls, cur, .Left, k, cca, true⟩ =
        ⟨ls, cur, .Left, k, cca, false⟩) := by
  by_cases h0 : 0 ≤ cur.x - k
  · refine Or.inl ⟨h0, ?_⟩
    have hb : g.exced_bounds cur .Left k = false := (exced_left_false g cur k).mpr h0
    simp [GridIterator.stepW, GridIterator.next, hb, Direction.to_point, Point.LEFT,
      Point.add]
    omega
  · by_cases h2 : 0 ≤ cur.y - 1
    · refine Or.inr (Or.inl ⟨by omega, h2, ?_⟩)
      have hb0 : g.exced_bounds cur .Left k = true := (exced_left_iff g cur k).mpr (by omega)
      have hb1 : g.exced_bounds cur .Left (k + 1) = true :=
        (exced_left_iff g cur (k + 1)).mpr (by omega)
      have hb2 : g.exced_bounds cur .Up 1 = false := (exced_up_false g cur 1).mpr h2
      simp [GridIterator.stepW, GridIterator.next, GridIterator.handle_one_direction,
        hb0, hb1, hb2, Direction.to_point, Point.UP, Point.add]
      omega
    · refine Or.inr (Or.inr ⟨by omega, by omega, ?_⟩)
      have hb0 : g.exced_bounds cur .Left k = true := (exced_left_iff g cur k).mpr (by omega)
      have hb1 : g.exced_bounds cur .Left (k + 1) = true :=
        (exced_left_iff g cur (k + 1)).mpr (by omega)
      have hb2 : g.exced_bounds cur .Up 1 = true := (exced_up_iff g cur 1).mpr (by omega)
      simp [GridIterator.stepW, GridIterator.next, GridIterator.handle_one_direction,
        hb0, hb1, hb2, GridIterator.brake]

theorem stepW_down_shape (g : Grid T) (ls cur : Point) (k : Int) (cca : Bool) :
    (cur.y + k < g.height ∧
      GridIterator.stepW g ⟨ls, cur, .Down, k, cca, true⟩ =
        ⟨ls, ⟨cur.x, cur.y + 1⟩, .Down, k, cca, true⟩) ∨
    (g.height ≤ cur.y + k ∧ cur.x + 1 < g.width ∧
      GridIterator.stepW g ⟨ls, cur, .Down, k, cca, true⟩ =
        ⟨⟨ls.x + 1, ls.y⟩, ⟨ls.x + 1, ls.y⟩, .Down, k, cca, true⟩) ∨
    (g.height ≤ cur.y + k ∧ g.width ≤ cur.x + 1 ∧
      GridIterator.stepW g ⟨ls, cur, .Down, k, cca, true⟩ =
        ⟨ls, cur, .Down, k, cca, false⟩) := by
  by_cases h0 : cur.y + k < g.height
  · refine Or.inl ⟨h0, ?_⟩
    have hb : g.exced_bounds cur .Down k = false := (exced_down_false g cur k).mpr h0
    simp [GridIterator.stepW, GridIterator.next, hb, Direction.to_point, Point.DOWN,
      Point.add]
  · by_cases h2 : cur.x + 1 < g.width
    · refine Or.inr (Or.inl ⟨by omega, h2, ?_⟩)
      have hb0 : g.exced_bounds cur .Down k = true := (exced_down_iff g cur k).mpr (by omega)
      have hb1 : g.exced_bounds cur .Down (k + 1) = true :=
        (exced_down_iff g cur (k + 1)).mpr (by omega)
      have hb2 : g.exced_bounds cur .Right 1 = false := (exced_right_false g cur 1).mpr h2
      simp [GridIterator.stepW, GridIterator.next, GridIterator.handle_one_direction,
        hb0, hb1, hb2, Direction.to_point, Point.RIGHT, Point.add]
    · refine Or.inr (Or.inr ⟨by omega, by omega, ?_⟩)
      have hb0 : g.exced_bounds cur .Down k = true := (exced_down_iff g cur k).mpr (by omega)
      have hb1 : g.exced_bounds cur .Down (k + 1) = true :=
        (exced_down_iff g cur (k + 1)).mpr (by omega)
      have hb2 : g.exced_bounds cur .Right 1 = true :=
        (exced_right_iff g cur 1).mpr (by omega)
      simp [GridIterator.stepW, GridIterator.next, GridIterator.handle_one_direction,
        hb0, hb1, hb2, GridIterator.brake]

theorem stepW_up_shape (g : Grid T) (ls cur : Point) (k : Int) (cca : Bool) :
    (0 ≤ cur.y - k ∧
      GridIterator.stepW g ⟨ls, cur, .Up, k, cca, true⟩ =
        ⟨ls, ⟨cur.x, cur.y - 1⟩, .Up, k, cca, true⟩) ∨
    (cur.y - k < 0 ∧ 0 ≤ cur.x - 1 ∧
      GridIterator.stepW g ⟨ls, cur, .Up, k, cca, true⟩ =
        ⟨⟨ls.x - 1, ls.y⟩, ⟨ls.x - 1, ls.y⟩, .Up, k, cca, true⟩) ∨
    (cur.y - k < 0 ∧ cur.x - 1 < 0 ∧
      GridIterator.stepW g ⟨ls, cur, .Up, k, cca, true⟩ =
        ⟨ls, cur, .Up, k, cca, false⟩) := by
  by_cases h0 : 0 ≤ cur.y - k
  · refine Or.inl ⟨h0, ?_⟩
    have hb : g.exced_bounds cur .Up k = false := (exced_up_false g cur k).mpr h0
    simp [GridIterator.stepW, GridIterator.next, hb, Direction.to_point, Point.UP,
      Point.add]
    omega
  · by_cases h2 : 0 ≤ cur.x - 1
    · refine Or.inr (Or.inl ⟨by omega, h2, ?_⟩)
      have hb0 : g.exced_bounds cur .Up k = true := (exced_up_iff g cur k).mpr (by omega)
      have hb1 : g.exced_bounds cur .Up (k + 1) = true :=
        (exced_up_iff g cur (k + 1)).mpr (by omega)
      have hb2 : g.exced_bounds cur .Left 1 = false := (exced_left_false g cur 1).mpr h2
      simp [GridIterator.stepW, GridIterator.next, GridIterator.handle_one_direction,
        hb0, hb1, hb2, Direction.to_point, Point.LEFT, Point.add]
      omega
    · refine Or.inr (Or.inr ⟨by omega, by omega, ?_⟩)
      have hb0 : g.exced_bounds cur .Up k = true := (exced_up_iff g cur k).mpr (by omega)
      have hb1 : g.exced_bounds cur .Up (k + 1) = true :=
        (exced_up_iff g cur (k + 1)).mpr (by omega)
      have hb2 : g.exced_bounds cur .Left 1 = true := (exced_left_iff g cur 1).mpr (by omega)
      simp [GridIterator.stepW, GridIterator.next, GridIterator.handle_one_direction,
        hb0, hb1, hb2, GridIterator.brake]

theorem stepW_rd_axis_shape (g : Grid T) (ls cur : Point) (k : Int) :
    (cur.x + k < g.width ∧ cur.y + k < g.height ∧
      GridIterator.stepW g ⟨ls, cur, .RightDown, k, true, true⟩ =
        ⟨ls, ⟨cur.x + 1, cur.y + 1⟩, .RightDown, k, true, true⟩) ∨
    ((g.width ≤ cur.x + k ∨ g.height ≤ cur.y + k) ∧ ls.x + 1 + k < g.width ∧
      GridIterator.stepW g ⟨ls, cur, .RightDown, k, true, true⟩ =
        ⟨⟨ls.x + 1, ls.y⟩, ⟨ls.x + 1, ls.y⟩, .RightDown, k, true, true⟩) ∨
    ((g.width ≤ cur.x + k ∨ g.height ≤ cur.y + k) ∧ g.width ≤ ls.x + 1 + k ∧
      GridIterator.stepW g ⟨ls, cur, .RightDown, k, true, true⟩ =
        ⟨⟨0, 1⟩, ⟨0, 1⟩, .RightDown, k, false, true⟩) := by
  by_cases h0 : cur.x + k < g.width ∧ cur.y + k < g.height
  · refine Or.inl ⟨h0.1, h0.2, ?_⟩
    have hb : g.exced_bounds cur .RightDown k = false := (exced_rd_false g cur k).mpr h0
    simp [GridIterator.stepW, GridIterator.next, hb, Direction.to_point, Point.RIGHT_DOWN,
      Point.add]
  · have hb0 : g.exced_bounds cur .RightDown k = true := (exced_rd_iff g cur k).mpr (by omega)
    by_cases h1 : ls.x + 1 + k < g.width
    · refine Or.inr (Or.inl ⟨by omega, h1, ?_⟩)
      simp only [GridIterator.stepW, GridIterator.next, hb0,
        GridIterator.handle_diagonal_direction]
      split
      · simp [Direction.to_point, Point.RIGHT, Point.add] <;> omega
      · rename_i hsp
        simp [Grid.exced_bounds, Direction.to_point, Point.RIGHT, Point.add] at hsp
        omega
    · refine Or.inr (Or.inr ⟨by omega, by omega, ?_⟩)
      simp only [GridIterator.stepW, GridIterator.next, hb0,
        GridIterator.handle_diagonal_direction]
      split
      · rename_i hsp
        simp [Grid.exced_bounds, Direction.to_point, Point.RIGHT, Point.add] at hsp
        omega
      · simp [Grid.get_starting_point, Point.new, Direction.to_point, Point.DOWN,
          Point.add] <;> omega

theorem stepW_rd_noaxis_shape (g : Grid T) (ls cur : Point) (k : Int) :
    (cur.x + k < g.width ∧ cur.y + k < g.height ∧
      GridIterator.stepW g ⟨ls, cur, .RightDown, k, false, true⟩ =
        ⟨ls, ⟨cur.x + 1, cur.y + 1⟩, .RightDown, k, false, true⟩) ∨
    ((g.width ≤ cur.x + k ∨ g.height ≤ cur.y + k) ∧ g.height ≤ ls.y + k ∧
      GridIterator.stepW g ⟨ls, cur, .RightDown, k, false, true⟩ =
        ⟨ls, cur, .RightDown, k, false, false⟩) ∨
    ((g.width ≤ cur.x + k ∨ g.height ≤ cur.y + k) ∧ ls.y + k < g.height ∧
      GridIterator.stepW g ⟨ls, cur, .RightDown, k, false, true⟩ =
        ⟨⟨ls.x, ls.y + 1⟩, ⟨ls.x, ls.y + 1⟩, .RightDown, k, false, true⟩) := by
  by_cases h0 : cur.x + k < g.width ∧ cur.y + k < g.height
  · refine Or.inl ⟨h0.1, h0.2, ?_⟩
    have hb : g.exced_bounds cur .RightDown k = false := (exced_rd_false g cur k).mpr h0
    simp [GridIterator.stepW, GridIterator.next, hb, Direction.to_point, Point.RIGHT_DOWN,
      Point.add]
  · have hb0 : g.exced_bounds cur .RightDown k = true := (exced_rd_iff g cur k).mpr (by omega)
    by_cases h1 : g.height ≤ ls.y + k
    · refine Or.inr (Or.inl ⟨by omega, h1, ?_⟩)
      simp only [GridIterator.stepW, GridIterator.next, hb0,
        GridIterator.handle_diagonal_direction]
      split
      · simp [GridIterator.brake]
      · rename_i hsp
        simp [Grid.exced_bounds, Direction.to_point, Point.DOWN, Point.add] at hsp
        omega
    · refine Or.inr (Or.inr ⟨by omega, by omega, ?_⟩)
      simp only [GridIterator.stepW, GridIterator.next, hb0,
        GridIterator.handle_diagonal_direction]
      split
      · rename_i hsp
        simp [Grid.exced_bounds, Direction.to_point, Point.DOWN, Point.add] at hsp
        omega
      · simp [Direction.to_point, Point.DOWN, Point.add] <;> omega

theorem stepW_ru_axis_shape (g : Grid T) (ls cur : Point) (k : Int) :
    (cur.x + k < g.width ∧ 0 ≤ cur.y - k ∧
      GridIterator.stepW g ⟨ls, cur, .RightUp, k, true, true⟩ =
        ⟨ls, ⟨cur.x + 1, cur.y - 1⟩, .RightUp, k, true, true⟩) ∨
    ((g.width ≤ cur.x + k ∨ cur.y - k < 0) ∧ ls.x + 1 + k < g.width ∧
      GridIterator.stepW g ⟨ls, cur, .RightUp, k, true, true⟩ =
        ⟨⟨ls.x + 1, ls.y⟩, ⟨ls.x + 1, ls.y⟩, .RightUp, k, true, true⟩) ∨
    ((g.width ≤ cur.x + k ∨ cur.y - k < 0) ∧ g.width ≤ ls.x + 1 + k ∧
      GridIterator.stepW g ⟨ls, cur, .RightUp, k, true, true⟩ =
        ⟨⟨0, g.height - 2⟩, ⟨0, g.height - 2⟩, .RightUp, k, false, true⟩) := by
  by_cases h0 : cur.x + k < g.width ∧ 0 ≤ cur.y - k
  · refine Or.inl ⟨h0.1, h0.2, ?_⟩
    have hb : g.exced_bounds cur .RightUp k = false := (exced_ru_false g cur k).mpr h0
    simp [GridIterator.stepW, GridIterator.next, hb, Direction.to_point, Point.RIGHT_UP,
      Point.add]
    omega
  · have hb0 : g.exced_bounds cur .RightUp k = true := (exced_ru_iff g cur k).mpr (by omega)
    by_cases h1 : ls.x + 1 + k < g.width
    · refine Or.inr (Or.inl ⟨by omega, h1, ?_⟩)
      simp only [GridIterator.stepW, GridIterator.next, hb0,
        GridIterator.handle_diagonal_direction]
      split
      · simp [Direction.to_point, Point.RIGHT, Point.add] <;> omega
      · rename_i hsp
        simp [Grid.exced_bounds, Direction.to_point, Point.RIGHT, Point.add] at hsp
        omega
    · refine Or.inr (Or.inr ⟨by omega, by omega, ?_⟩)
      simp only [GridIterator.stepW, GridIterator.next, hb0,
        GridIterator.handle_diagonal_direction]
      split
      · rename_i hsp
        simp [Grid.exced_bounds, Direction.to_point, Point.RIGHT, Point.add] at hsp
        omega
      · simp [Grid.get_starting_point, Point.new, Direction.to_point, Point.UP,
          Point.add] <;> omega

theorem stepW_ru_noaxis_shape (g : Grid T) (ls cur : Point) (k : Int) :
    (cur.x + k < g.width ∧ 0 ≤ cur.y - k ∧
      GridIterator.stepW g ⟨ls, cur, .RightUp, k, false, true⟩ =
        ⟨ls, ⟨cur.x + 1, cur.y - 1⟩, .RightUp, k, false, true⟩) ∨
    ((g.width ≤ cur.x + k ∨ cur.y - k < 0) ∧ ls.y - k < 0 ∧
      GridIterator.stepW g ⟨ls, cur, .RightUp, k, false, true⟩ =
        ⟨ls, cur, .RightUp, k, false, false⟩) ∨
    ((g.width ≤ cur.x + k ∨ cur.y - k < 0) ∧ 0 ≤ ls.y - k ∧
      GridIterator.stepW g ⟨ls, cur, .RightUp, k, false, true⟩ =
        ⟨⟨ls.x, ls.y - 1⟩, ⟨ls.x, ls.y - 1⟩, .RightUp, k, false, true⟩) := by
  by_cases h0 : cur.x + k < g.width ∧ 0 ≤ cur.y - k
  · refine Or.inl ⟨h0.1, h0.2, ?_⟩
    have hb : g.exced_bounds cur .RightUp k = false := (exced_ru_false g cur k).mpr h0
    simp [GridIterator.stepW, GridIterator.next, hb, Direction.to_point, Point.RIGHT_UP,
      Point.add]
    omega
  · have hb0 : g.exced_bounds cur .RightUp k = true := (exced_ru_iff g cur k).mpr (by omega)
    by_cases h1 : ls.y - k < 0
    · refine Or.inr (Or.inl ⟨by omega, h1, ?_⟩)
      simp only [GridIterator.stepW, GridIterator.next, hb0,
        GridIterator.handle_diagonal_direction]
      split
      · simp [GridIterator.brake]
      · rename_i hsp
        simp [Grid.exced_bounds, Direction.to_point, Point.UP, Point.add] at hsp
        omega
    · refine Or.inr (Or.inr ⟨by omega, by omega, ?_⟩)
      simp only [GridIterator.stepW, GridIterator.next, hb0,
        GridIterator.handle_diagonal_direction]
      split
      · rename_i hsp
        simp [Grid.exced_bounds, Direction.to_point, Point.UP, Point.add] at hsp
        omega
      · simp [Direction.to_point, Point.UP, Point.add] <;> omega

theorem stepW_ld_axis_shape (g : Grid T) (ls cur : Point) (k : Int) :
    (0 ≤ cur.x - k ∧ cur.y + k < g.height ∧
      GridIterator.stepW g ⟨ls, cur, .LeftDown, k, true, true⟩ =
        ⟨ls, ⟨cur.x - 1, cur.y + 1⟩, .LeftDown, k, true, true⟩) ∨
    ((cur.x - k < 0 ∨ g.height ≤ cur.y + k) ∧ 0 ≤ ls.x - 1 - k ∧
      GridIterator.stepW g ⟨ls, cur, .LeftDown, k, true, true⟩ =
        ⟨⟨ls.x - 1, ls.y⟩, ⟨ls.x - 1, ls.y⟩, .LeftDown, k, true, true⟩) ∨
    ((cur.x - k < 0 ∨ g.height ≤ cur.y + k) ∧ ls.x - 1 - k < 0 ∧
      GridIterator.stepW g ⟨ls, cur, .LeftDown, k, true, true⟩ =
        ⟨⟨g.width - 1, 1⟩, ⟨g.width - 1, 1⟩, .LeftDown, k, false, true⟩) := by
  by_cases h0 : 0 ≤ cur.x - k ∧ cur.y + k < g.height
  · refine Or.inl ⟨h0.1, h0.2, ?_⟩
    have hb : g.exced_bounds cur .LeftDown k = false := (exced_ld_false g cur k).mpr h0
    simp [GridIterator.stepW, GridIterator.next, hb, Direction.to_point, Point.LEFT_DOWN,
      Point.add]
    omega
  · have hb0 : g.exced_bounds cur .LeftDown k = true := (exced_ld_iff g cur k).mpr (by omega)
    by_cases h1 : 0 ≤ ls.x - 1 - k
    · refine Or.inr (Or.inl ⟨by omega, h1, ?_⟩)
      simp only [GridIterator.stepW, GridIterator.next, hb0,
        GridIterator.handle_diagonal_direction]
      split
      · simp [Direction.to_point, Point.LEFT, Point.add] <;> omega
      · rename_i hsp
        simp [Grid.exced_bounds, Direction.to_point, Point.LEFT, Point.add] at hsp
        omega
    · refine Or.inr (Or.inr ⟨by omega, by omega, ?_⟩)
      simp only [GridIterator.stepW, GridIterator.next, hb0,
        GridIterator.handle_diagonal_direction]
      split
      · rename_i hsp
        simp [Grid.exced_bounds, Direction.to_point, Point.LEFT, Point.add] at hsp
        omega
      · simp [Grid.get_starting_point, Point.new, Direction.to_point, Point.DOWN,
          Point.add] <;> omega

theorem stepW_ld_noaxis_shape (g : Grid T) (ls cur : Point) (k : Int) :
    (0 ≤ cur.x - k ∧ cur.y + k < g.height ∧
      GridIterator.stepW g ⟨ls, cur, .LeftDown, k, false, true⟩ =
        ⟨ls, ⟨cur.x - 1, cur.y + 1⟩, .LeftDown, k, false, true⟩) ∨
    ((cur.x - k < 0 ∨ g.height ≤ cur.y + k) ∧ g.height ≤ ls.y + k ∧
      GridIterator.stepW g ⟨ls, cur, .LeftDown, k, false, true⟩ =
        ⟨ls, cur, .LeftDown, k, false, false⟩) ∨
    ((cur.x - k < 0 ∨ g.height ≤ cur.y + k) ∧ ls.y + k < g.height ∧
      GridIterator.stepW g ⟨ls, cur, .LeftDown, k, false, true⟩ =
        ⟨⟨ls.x, ls.y + 1⟩, ⟨ls.x, ls.y + 1⟩, .LeftDown, k, false, true⟩) := by
  by_cases h0 : 0 ≤ cur.x - k ∧ cur.y + k < g.height
  · refine Or.inl ⟨h0.1, h0.2, ?_⟩
    have hb : g.exced_bounds cur .LeftDown k = false := (exced_ld_false g cur k).mpr h0
    simp [GridIterator.stepW, GridIterator.next, hb, Direction.to_point, Point.LEFT_DOWN,
      Point.add]
    omega
  · have hb0 : g.exced_bounds cur .LeftDown k = true := (exced_ld_iff g cur k).mpr (by omega)
    by_cases h1 : g.height ≤ ls.y + k
    · refine Or.inr (Or.inl ⟨by omega, h1, ?_⟩)
      simp only [GridIterator.stepW, GridIterator.next, hb0,
        GridIterator.handle_diagonal_direction]
      split
      · simp [GridIterator.brake]
      · rename_i hsp
        simp [Grid.exced_bounds, Direction.to_point, Point.DOWN, Point.add] at hsp
        omega
    · refine Or.inr (Or.inr ⟨by omega, by omega, ?_⟩)
      simp only [GridIterator.stepW, GridIterator.next, hb0,
        GridIterator.handle_diagonal_direction]
      split
      · rename_i hsp
        simp [Grid.exced_bounds, Direction.to_point, Point.DOWN, Point.add] at hsp
        omega
      · simp [Direction.to_point, Point.DOWN, Point.add] <;> omega

theorem stepW_lu_axis_shape (g : Grid T) (ls cur : Point) (k : Int) :
    (0 ≤ cur.x - k ∧ 0 ≤ cur.y - k ∧
      GridIterator.stepW g ⟨ls, cur, .LeftUp, k, true, true⟩ =
        ⟨ls, ⟨cur.x - 1, cur.y - 1⟩, .LeftUp, k, true, true⟩) ∨
    ((cur.x - k < 0 ∨ cur.y - k < 0) ∧ 0 ≤ ls.x - 1 - k ∧
      GridIterator.stepW g ⟨ls, cur, .LeftUp, k, true, true⟩ =
        ⟨⟨ls.x - 1, ls.y⟩, ⟨ls.x - 1, ls.y⟩, .LeftUp, k, true, true⟩) ∨
    ((cur.x - k < 0 ∨ cur.y - k < 0) ∧ ls.x - 1 - k < 0 ∧
      GridIterator.stepW g ⟨ls, cur, .LeftUp, k, true, true⟩ =
        ⟨⟨g.width - 1, g.height - 2⟩, ⟨g.width - 1, g.height - 2⟩, .LeftUp, k, false, true⟩) := by
  by_cases h0 : 0 ≤ cur.x - k ∧ 0 ≤ cur.y - k
  · refine Or.inl ⟨h0.1, h0.2, ?_⟩
    have hb : g.exced_bounds cur .LeftUp k = false := (exced_lu_false g cur k).mpr h0
    simp [GridIterator.stepW, GridIterator.next, hb, Direction.to_point, Point.LEFT_UP,
      Point.add]
    omega
  · have hb0 : g.exced_bounds cur .LeftUp k = true := (exced_lu_iff g cur k).mpr (by omega)
    by_cases h1 : 0 ≤ ls.x - 1 - k
    · refine Or.inr (Or.inl ⟨by omega, h1, ?_⟩)
      simp only [GridIterator.stepW, GridIterator.next, hb0,
        GridIterator.handle_diagonal_direction]
      split
      · simp [Direction.to_point, Point.LEFT, Point.add] <;> omega
      · rename_i hsp
        simp [Grid.exced_bounds, Direction.to_point, Point.LEFT, Point.add] at hsp
        omega
    · refine Or.inr (Or.inr ⟨by omega, by omega, ?_⟩)
      simp only [GridIterator.stepW, GridIterator.next, hb0,
        GridIterator.handle_diagonal_direction]
      split
      · rename_i hsp
        simp [Grid.exced_bounds, Direction.to_point, Point.LEFT, Point.add] at hsp
        omega
      · simp [Grid.get_starting_point, Point.new, Direction.to_point, Point.UP,
          Point.add] <;> omega

theorem stepW_lu_noaxis_shape (g : Grid T) (ls cur : Point) (k : Int) :
    (0 ≤ cur.x - k ∧ 0 ≤ cur.y - k ∧
      GridIterator.stepW g ⟨ls, cur, .LeftUp, k, false, true⟩ =
        ⟨ls, ⟨cur.x - 1, cur.y - 1⟩, .LeftUp, k, false, true⟩) ∨
    ((cur.x - k < 0 ∨ cur.y - k < 0) ∧ ls.y - k < 0 ∧
      GridIterator.stepW g ⟨ls, cur, .LeftUp, k, false, true⟩ =
        ⟨ls, cur, .LeftUp, k, false, false⟩) ∨
    ((cur.x - k < 0 ∨ cur.y - k < 0) ∧ 0 ≤ ls.y - k ∧
      GridIterator.stepW g ⟨ls, cur, .LeftUp, k, false, true⟩ =
        ⟨⟨ls.x, ls.y - 1⟩, ⟨ls.x, ls.y - 1⟩, .LeftUp, k, false, true⟩) := by
  by_cases h0 : 0 ≤ cur.x - k ∧ 0 ≤ cur.y - k
  · refine Or.inl ⟨h0.1, h0.2, ?_⟩
    have hb : g.exced_bounds cur .LeftUp k = false := (exced_lu_false g cur k).mpr h0
    simp [GridIterator.stepW, GridIterator.next, hb, Direction.to_point, Point.LEFT_UP,
      Point.add]
    omega
  · have hb0 : g.exced_bounds cur .LeftUp k = true := (exced_lu_iff g cur k).mpr (by omega)
    by_cases h1 : ls.y - k < 0
    · refine Or.inr (Or.inl ⟨by omega, h1, ?_⟩)
      simp only [GridIterator.stepW, GridIterator.next, hb0,
        GridIterator.handle_diagonal_direction]
      split
      · simp [GridIterator.brake]
      · rename_i hsp
        simp [Grid.exced_bounds, Direction.to_point, Point.UP, Point.add] at hsp
        omega
    · refine Or.inr (Or.inr ⟨by omega, by omega, ?_⟩)
      simp only [GridIterator.stepW, GridIterator.next, hb0,
        GridIterator.handle_diagonal_direction]
      split
      · rename_i hsp
        simp [Grid.exced_bounds, Direction.to_point, Point.UP, Point.add] at hsp
        omega
      · simp [Direction.to_point, Point.UP, Point.add] <;> omega

/-! ## Termination of the wrap scan -/

set_option maxHeartbeats 2000000 in
theorem muW_decrease (g : Grid T) (s : GridIterator) (hI : wrapInv g s)
    (hn : s.have_next = true) :
    wrapInv g (s.stepW g) ∧ muW g (s.stepW g) < muW g s := by
  obtain ⟨ls, cur, d, k, cca, hnn⟩ := s
  have hn' : hnn = true := hn
  subst hn'
  cases d
  case Right =>
    obtain ⟨hx, hy⟩ : ls.x = 0 ∧ cur.y = ls.y := hI rfl
    rcases stepW_right_shape g ls cur k cca with ⟨hc, hs⟩ | ⟨hc1, hc2, hs⟩ | ⟨hc1, hc2, hs⟩ <;>
      rw [hs]
    · refine ⟨fun _ => ⟨hx, hy⟩, ?_⟩
      simp only [muW, inLineRem, slideRem, muBase]
      omega
    · refine ⟨fun _ => ⟨hx, rfl⟩, ?_⟩
      simp only [muW, inLineRem, slideRem, muBase]
      have e2 : (g.width.toNat + g.height.toNat + k.natAbs + 3) *
          (g.height - 1 - ls.y).toNat =
          (g.width.toNat + g.height.toNat + k.natAbs + 3) *
            (g.height - 1 - (ls.y + 1)).toNat +
          (g.width.toNat + g.height.toNat + k.natAbs + 3) := by
        have e1 : (g.height - 1 - ls.y).toNat = (g.height - 1 - (ls.y + 1)).toNat + 1 := by
          omega
        rw [e1]; ring
      omega
    · refine ⟨fun h => by simp at h, ?_⟩
      simp only [muW]
      omega
  case Down =>
    obtain ⟨hy0, hx⟩ : ls.y = 0 ∧ cur.x = ls.x := hI rfl
    rcases stepW_down_shape g ls cur k cca with ⟨hc, hs⟩ | ⟨hc1, hc2, hs⟩ | ⟨hc1, hc2, hs⟩ <;>
      rw [hs]
    · refine ⟨fun _ => ⟨hy0, hx⟩, ?_⟩
      simp only [muW, inLineRem, slideRem, muBase]
      omega
    · refine ⟨fun _ => ⟨hy0, rfl⟩, ?_⟩
      simp only [muW, inLineRem, slideRem, muBase]
      have e2 : (g.width.toNat + g.height.toNat + k.natAbs + 3) *
          (g.width - 1 - ls.x).toNat =
          (g.width.toNat + g.height.toNat + k.natAbs + 3) *
            (g.width - 1 - (ls.x + 1)).toNat +
          (g.width.toNat + g.height.toNat + k.natAbs + 3) := by
        have e1 : (g.width - 1 - ls.x).toNat = (g.width - 1 - (ls.x + 1)).toNat + 1 := by
          omega
        rw [e1]; ring
      omega
    · refine ⟨fun h => by simp at h, ?_⟩
      simp only [muW]
      omega
  case Left =>
    obtain ⟨hx, hy⟩ : ls.x = g.width - 1 ∧ cur.y = ls.y := hI rfl
    rcases stepW_left_shape g ls cur k cca with ⟨hc, hs⟩ | ⟨hc1, hc2, hs⟩ | ⟨hc1, hc2, hs⟩ <;>
      rw [hs]
    · refine ⟨fun _ => ⟨hx, hy⟩, ?_⟩
      simp only [muW, inLineRem, slideRem, muBase]
      omega
    · refine ⟨fun _ => ⟨hx, rfl⟩, ?_⟩
      simp only [muW, inLineRem, slideRem, muBase]
      have e2 : (g.width.toNat + g.height.toNat + k.natAbs + 3) * ls.y.toNat =
          (g.width.toNat + g.height.toNat + k.natAbs + 3) * (ls.y - 1).toNat +
          (g.width.toNat + g.height.toNat + k.natAbs + 3) := by
        have e1 : ls.y.toNat = (ls.y - 1).toNat + 1 := by omega
        rw [e1]; ring
      omega
    · refine ⟨fun h => by simp at h, ?_⟩
      simp only [muW]
      omega
  case Up =>
    obtain ⟨hy0, hx⟩ : ls.y = g.height - 1 ∧ cur.x = ls.x := hI rfl
    rcases stepW_up_shape g ls cur k cca with ⟨hc, hs⟩ | ⟨hc1, hc2, hs⟩ | ⟨hc1, hc2, hs⟩ <;>
      rw [hs]
    · refine ⟨fun _ => ⟨hy0, hx⟩, ?_⟩
      simp only [muW, inLineRem, slideRem, muBase]
      omega
    · refine ⟨fun _ => ⟨hy0, rfl⟩, ?_⟩
      simp only [muW, inLineRem, slideRem, muBase]
      have e2 : (g.width.toNat + g.height.toNat + k.natAbs + 3) * ls.x.toNat =
          (g.width.toNat + g.height.toNat + k.natAbs + 3) * (ls.x - 1).toNat +
          (g.width.toNat + g.height.toNat + k.natAbs + 3) := by
        have e1 : ls.x.toNat = (ls.x - 1).toNat + 1 := by omega
        rw [e1]; ring
      omega
    · refine ⟨fun h => by simp at h, ?_⟩
      simp only [muW]
      omega
  case RightDown =>
    cases cca
    case true =>
      have hy0 : ls.y = 0 := hI rfl
      rcases stepW_rd_axis_shape g ls cur k with ⟨hc1, hc2, hs⟩ | ⟨hc1, hc2, hs⟩ |
        ⟨hc1, hc2, hs⟩ <;> rw [hs]
      · refine ⟨fun _ => hy0, ?_⟩
        simp only [muW, inLineRem, slideRem, muBase]
        omega
      · refine ⟨fun _ => hy0, ?_⟩
        simp only [muW, inLineRem, slideRem, muBase]
        have e2 : (g.width.toNat + g.height.toNat + k.natAbs + 3) *
            (g.width - k - 1 - ls.x).toNat =
            (g.width.toNat + g.height.toNat + k.natAbs + 3) *
              (g.width - k - 1 - (ls.x + 1)).toNat +
            (g.width.toNat + g.height.toNat + k.natAbs + 3) := by
          have e1 : (g.width - k - 1 - ls.x).toNat =
              (g.width - k - 1 - (ls.x + 1)).toNat + 1 := by omega
          rw [e1]; ring
        omega
      · refine ⟨fun _ => rfl, ?_⟩
        simp only [muW, inLineRem, slideRem, muBase]
        have p1 : (g.width.toNat + g.height.toNat + k.natAbs + 3) *
            (g.height - k - 1).toNat ≤
            (g.width.toNat + g.height.toNat + k.natAbs + 3) *
              (g.width.toNat + g.height.toNat + k.natAbs) :=
          Nat.mul_le_mul_left _ (by omega)
        have p2 : (g.width.toNat + g.height.toNat + k.natAbs + 3) *
            (g.width.toNat + g.height.toNat + k.natAbs + 3) =
            (g.width.toNat + g.height.toNat + k.natAbs + 3) *
              (g.width.toNat + g.height.toNat + k.natAbs) +
            3 * (g.width.toNat + g.height.toNat + k.natAbs + 3) := by ring
        omega
    case false =>
      have hx0 : ls.x = 0 := hI rfl
      rcases stepW_rd_noaxis_shape g ls cur k with ⟨hc1, hc2, hs⟩ | ⟨hc1, hc2, hs⟩ |
        ⟨hc1, hc2, hs⟩ <;> rw [hs]
      · refine ⟨fun _ => hx0, ?_⟩
        simp only [muW, inLineRem, slideRem, muBase]
        omega
      · refine ⟨fun h => by simp at h, ?_⟩
        simp only [muW]
        omega
      · refine ⟨fun _ => hx0, ?_⟩
        simp only [muW, inLineRem, slideRem, muBase]
        have e2 : (g.width.toNat + g.height.toNat + k.natAbs + 3) *
            (g.height - k - ls.y).toNat =
            (g.width.toNat + g.height.toNat + k.natAbs + 3) *
              (g.height - k - (ls.y + 1)).toNat +
            (g.width.toNat + g.height.toNat + k.natAbs + 3) := by
          have e1 : (g.height - k - ls.y).toNat =
              (g.height - k - (ls.y + 1)).toNat + 1 := by omega
          rw [e1]; ring
        omega
  case RightUp =>
    cases cca
    case true =>
      have hy0 : ls.y = g.height - 1 := hI rfl
      rcases stepW_ru_axis_shape g ls cur k with ⟨hc1, hc2, hs⟩ | ⟨hc1, hc2, hs⟩ |
        ⟨hc1, hc2, hs⟩ <;> rw [hs]
      · refine ⟨fun _ => hy0, ?_⟩
        simp only [muW, inLineRem, slideRem, muBase]
        omega
      · refine ⟨fun _ => hy0, ?_⟩
        simp only [muW, inLineRem, slideRem, muBase]
        have e2 : (g.width.toNat + g.height.toNat + k.natAbs + 3) *
            (g.width - k - 1 - ls.x).toNat =
            (g.width.toNat + g.height.toNat + k.natAbs + 3) *
              (g.width - k - 1 - (ls.x + 1)).toNat +
            (g.width.toNat + g.height.toNat + k.natAbs + 3) := by
          have e1 : (g.width - k - 1 - ls.x).toNat =
              (g.width - k - 1 - (ls.x + 1)).toNat + 1 := by omega
          rw [e1]; ring
        omega
      · refine ⟨fun _ => rfl, ?_⟩
        simp only [muW, inLineRem, slideRem, muBase]
        have p1 : (g.width.toNat + g.height.toNat + k.natAbs + 3) *
            (g.height - 2 - k + 1).toNat ≤
            (g.width.toNat + g.height.toNat + k.natAbs + 3) *
              (g.width.toNat + g.height.toNat + k.natAbs) :=
          Nat.mul_le_mul_left _ (by omega)
        have p2 : (g.width.toNat + g.height.toNat + k.natAbs + 3) *
            (g.width.toNat + g.height.toNat + k.natAbs + 3) =
            (g.width.toNat + g.height.toNat + k.natAbs + 3) *
              (g.width.toNat + g.height.toNat + k.natAbs) +
            3 * (g.width.toNat + g.height.toNat + k.natAbs + 3) := by ring
        omega
    case false =>
      have hx0 : ls.x = 0 := hI rfl
      rcases stepW_ru_noaxis_shape g ls cur k with ⟨hc1, hc2, hs⟩ | ⟨hc1, hc2, hs⟩ |
        ⟨hc1, hc2, hs⟩ <;> rw [hs]
      · refine ⟨fun _ => hx0, ?_⟩
        simp only [muW, inLineRem, slideRem, muBase]
        omega
      · refine ⟨fun h => by simp at h, ?_⟩
        simp only [muW]
        omega
      · refine ⟨fun _ => hx0, ?_⟩
        simp only [muW, inLineRem, slideRem, muBase]
        have e2 : (g.width.toNat + g.height.toNat + k.natAbs + 3) * (ls.y - k + 1).toNat =
            (g.width.toNat + g.height.toNat + k.natAbs + 3) * (ls.y - 1 - k + 1).toNat +
            (g.width.toNat + g.height.toNat + k.natAbs + 3) := by
          have e1 : (ls.y - k + 1).toNat = (ls.y - 1 - k + 1).toNat + 1 := by omega
          rw [e1]; ring
        omega
  case LeftDown =>
    cases cca
    case true =>
      have hy0 : ls.y = 0 := hI rfl
      rcases stepW_ld_axis_shape g ls cur k with ⟨hc1, hc2, hs⟩ | ⟨hc1, hc2, hs⟩ |
        ⟨hc1, hc2, hs⟩ <;> rw [hs]
      · refine ⟨fun _ => hy0, ?_⟩
        simp only [muW, inLineRem, slideRem, muBase]
        omega
      · refine ⟨fun _ => hy0, ?_⟩
        simp only [muW, inLineRem, slideRem, muBase]
        have e2 : (g.width.toNat + g.height.toNat + k.natAbs + 3) * (ls.x - k).toNat =
            (g.width.toNat + g.height.toNat + k.natAbs + 3) * (ls.x - 1 - k).toNat +
            (g.width.toNat + g.height.toNat + k.natAbs + 3) := by
          have e1 : (ls.x - k).toNat = (ls.x - 1 - k).toNat + 1 := by omega
          rw [e1]; ring
        omega
      · refine ⟨fun _ => rfl, ?_⟩
        simp only [muW, inLineRem, slideRem, muBase]
        have p1 : (g.width.toNat + g.height.toNat + k.natAbs + 3) *
            (g.height - k - 1).toNat ≤
            (g.width.toNat + g.height.toNat + k.natAbs + 3) *
              (g.width.toNat + g.height.toNat + k.natAbs) :=
          Nat.mul_le_mul_left _ (by omega)
        have p2 : (g.width.toNat + g.height.toNat + k.natAbs + 3) *
            (g.width.toNat + g.height.toNat + k.natAbs + 3) =
            (g.width.toNat + g.height.toNat + k.natAbs + 3) *
              (g.width.toNat + g.height.toNat + k.natAbs) +
            3 * (g.width.toNat + g.height.toNat + k.natAbs + 3) := by ring
        omega
    case false =>
      have hxw : ls.x = g.width - 1 := hI rfl
      rcases stepW_ld_noaxis_shape g ls cur k with ⟨hc1, hc2, hs⟩ | ⟨hc1, hc2, hs⟩ |
        ⟨hc1, hc2, hs⟩ <;> rw [hs]
      · refine ⟨fun _ => hxw, ?_⟩
        simp only [muW, inLineRem, slideRem, muBase]
        omega
      · refine ⟨fun h => by simp at h, ?_⟩
        simp only [muW]
        omega
      · refine ⟨fun _ => hxw, ?_⟩
        simp only [muW, inLineRem, slideRem, muBase]
        have e2 : (g.width.toNat + g.height.toNat + k.natAbs + 3) *
            (g.height - k - ls.y).toNat =
            (g.width.toNat + g.height.toNat + k.natAbs + 3) *
              (g.height - k - (ls.y + 1)).toNat +
            (g.width.toNat + g.height.toNat + k.natAbs + 3) := by
          have e1 : (g.height - k - ls.y).toNat =
              (g.height - k - (ls.y + 1)).toNat + 1 := by omega
          rw [e1]; ring
        omega
  case LeftUp =>
    cases cca
    case true =>
      have hy0 : ls.y = g.height - 1 := hI rfl
      rcases stepW_lu_axis_shape g ls cur k with ⟨hc1, hc2, hs⟩ | ⟨hc1, hc2, hs⟩ |
        ⟨hc1, hc2, hs⟩ <;> rw [hs]
      · refine ⟨fun _ => hy0, ?_⟩
        simp only [muW, inLineRem, slideRem, muBase]
        omega
      · refine ⟨fun _ => hy0, ?_⟩
        simp only [muW, inLineRem, slideRem, muBase]
        have e2 : (g.width.toNat + g.height.toNat + k.natAbs + 3) * (ls.x - k).toNat =
            (g.width.toNat + g.height.toNat + k.natAbs + 3) * (ls.x - 1 - k).toNat +
            (g.width.toNat + g.height.toNat + k.natAbs + 3) := by
          have e1 : (ls.x - k).toNat = (ls.x - 1 - k).toNat + 1 := by omega
          rw [e1]; ring
        omega
      · refine ⟨fun _ => rfl, ?_⟩
        simp only [muW, inLineRem, slideRem, muBase]
        have p1 : (g.width.toNat + g.height.toNat + k.natAbs + 3) *
            (g.height - 2 - k + 1).toNat ≤
            (g.width.toNat + g.height.toNat + k.natAbs + 3) *
              (g.width.toNat + g.height.toNat + k.natAbs) :=
          Nat.mul_le_mul_left _ (by omega)
        have p2 : (g.width.toNat + g.height.toNat + k.natAbs + 3) *
            (g.width.toNat + g.height.toNat + k.natAbs + 3) =
            (g.width.toNat + g.height.toNat + k.natAbs + 3) *
              (g.width.toNat + g.height.toNat + k.natAbs) +
            3 * (g.width.toNat + g.height.toNat + k.natAbs + 3) := by ring
        omega
    case false =>
      have hxw : ls.x = g.width - 1 := hI rfl
      rcases stepW_lu_noaxis_shape g ls cur k with ⟨hc1, hc2, hs⟩ | ⟨hc1, hc2, hs⟩ |
        ⟨hc1, hc2, hs⟩ <;> rw [hs]
      · refine ⟨fun _ => hxw, ?_⟩
        simp only [muW, inLineRem, slideRem, muBase]
        omega
      · refine ⟨fun h => by simp at h, ?_⟩
        simp only [muW]
        omega
      · refine ⟨fun _ => hxw, ?_⟩
        simp only [muW, inLineRem, slideRem, muBase]
        have e2 : (g.width.toNat + g.height.toNat + k.natAbs + 3) * (ls.y - k + 1).toNat =
            (g.width.toNat + g.height.toNat + k.natAbs + 3) * (ls.y - 1 - k + 1).toNat +
            (g.width.toNat + g.height.toNat + k.natAbs + 3) := by
          have e1 : (ls.y - k + 1).toNat = (ls.y - 1 - k + 1).toNat + 1 := by omega
          rw [e1]; ring
        omega
  case Stop =>
    have hs : GridIterator.stepW g ⟨ls, cur, .Stop, k, cca, true⟩ =
        ⟨ls, cur, .Stop, k, cca, false⟩ := by
      simp [GridIterator.stepW, GridIterator.next, Grid.exced_bounds, GridIterator.brake]
    rw [hs]
    refine ⟨fun h => by simp at h, ?_⟩
    simp only [muW]
    omega

theorem muB_decrease (g : Grid T) (s : GridIterator) (hn : s.have_next = true) :
    muB g (s.stepB g) < muB g s := by
  obtain ⟨ls, cur, d, k, cca, hnn⟩ := s
  have hn' : hnn = true := hn
  subst hn'
  cases d
  case Right =>
    cases h0 : g.exced_bounds cur .Right k
    · have hc := (exced_right_false g cur k).mp h0
      have hs : GridIterator.stepB g ⟨ls, cur, .Right, k, cca, true⟩ =
          ⟨ls, ⟨cur.x + 1, cur.y⟩, .Right, k, cca, true⟩ := by
        simp [GridIterator.stepB, GridIterator.next, h0, Direction.to_point, Point.RIGHT,
          Point.add]
      rw [hs]
      simp only [muB, inLineRem]
      omega
    · have hs : GridIterator.stepB g ⟨ls, cur, .Right, k, cca, true⟩ =
          ⟨ls, cur, .Right, k, cca, false⟩ := by
        simp [GridIterator.stepB, GridIterator.next, h0, GridIterator.brake]
      rw [hs]
      simp only [muB]
      omega
  case Left =>
    cases h0 : g.exced_bounds cur .Left k
    · have hc := (exced_left_false g cur k).mp h0
      have hs : GridIterator.stepB g ⟨ls, cur, .Left, k, cca, true⟩ =
          ⟨ls, ⟨cur.x - 1, cur.y⟩, .Left, k, cca, true⟩ := by
        simp [GridIterator.stepB, GridIterator.next, h0, Direction.to_point, Point.LEFT,
          Point.add]
        omega
      rw [hs]
      simp only [muB, inLineRem]
      omega
    · have hs : GridIterator.stepB g ⟨ls, cur, .Left, k, cca, true⟩ =
          ⟨ls, cur, .Left, k, cca, false⟩ := by
        simp [GridIterator.stepB, GridIterator.next, h0, GridIterator.brake]
      rw [hs]
      simp only [muB]
      omega
  case Up =>
    cases h0 : g.exced_bounds cur .Up k
    · have hc := (exced_up_false g cur k).mp h0
      have hs : GridIterator.stepB g ⟨ls, cur, .Up, k, cca, true⟩ =
          ⟨ls, ⟨cur.x, cur.y - 1⟩, .Up, k, cca, true⟩ := by
        simp [GridIterator.stepB, GridIterator.next, h0, Direction.to_point, Point.UP,
          Point.add]
        omega
      rw [hs]
      simp only [muB, inLineRem]
      omega
    · have hs : GridIterator.stepB g ⟨ls, cur, .Up, k, cca, true⟩ =
          ⟨ls, cur, .Up, k, cca, false⟩ := by
        simp [GridIterator.stepB, GridIterator.next, h0, GridIterator.brake]
      rw [hs]
      simp only [muB]
      omega
  case Down =>
    cases h0 : g.exced_bounds cur .Down k
    · have hc := (exced_down_false g cur k).mp h0
      have hs : GridIterator.stepB g ⟨ls, cur, .Down, k, cca, true⟩ =
          ⟨ls, ⟨cur.x, cur.y + 1⟩, .Down, k, cca, true⟩ := by
        simp [GridIterator.stepB, GridIterator.next, h0, Direction.to_point, Point.DOWN,
          Point.add]
      rw [hs]
      simp only [muB, inLineRem]
      omega
    · have hs : GridIterator.stepB g ⟨ls, cur, .Down, k, cca, true⟩ =
          ⟨ls, cur, .Down, k, cca, false⟩ := by
        simp [GridIterator.stepB, GridIterator.next, h0, GridIterator.brake]
      rw [hs]
      simp only [muB]
      omega
  case RightDown =>
    cases h0 : g.exced_bounds cur .RightDown k
    · have hc := (exced_rd_false g cur k).mp h0
      have hs : GridIterator.stepB g ⟨ls, cur, .RightDown, k, cca, true⟩ =
          ⟨ls, ⟨cur.x + 1, cur.y + 1⟩, .RightDown, k, cca, true⟩ := by
        simp [GridIterator.stepB, GridIterator.next, h0, Direction.to_point,
          Point.RIGHT_DOWN, Point.add]
      rw [hs]
      simp only [muB, inLineRem]
      omega
    · have hs : GridIterator.stepB g ⟨ls, cur, .RightDown, k, cca, true⟩ =
          ⟨ls, cur, .RightDown, k, cca, false⟩ := by
        simp [GridIterator.stepB, GridIterator.next, h0, GridIterator.brake]
      rw [hs]
      simp only [muB]
      omega
  case RightUp =>
    cases h0 : g.exced_bounds cur .RightUp k
    · have hc := (exced_ru_false g cur k).mp h0
      have hs : GridIterator.stepB g ⟨ls, cur, .RightUp, k, cca, true⟩ =
          ⟨ls, ⟨cur.x + 1, cur.y - 1⟩, .RightUp, k, cca, true⟩ := by
        simp [GridIterator.stepB, GridIterator.next, h0, Direction.to_point,
          Point.RIGHT_UP, Point.add]
        omega
      rw [hs]
      simp only [muB, inLineRem]
      omega
    · have hs : GridIterator.stepB g ⟨ls, cur, .RightUp, k, cca, true⟩ =
          ⟨ls, cur, .RightUp, k, cca, false⟩ := by
        simp [GridIterator.stepB, GridIterator.next, h0, GridIterator.brake]
      rw [hs]
      simp only [muB]
      omega
  case LeftDown =>
    cases h0 : g.exced_bounds cur .LeftDown k
    · have hc := (exced_ld_false g cur k).mp h0
      have hs : GridIterator.stepB g ⟨ls, cur, .LeftDown, k, cca, true⟩ =
          ⟨ls, ⟨cur.x - 1, cur.y + 1⟩, .LeftDown, k, cca, true⟩ := by
        simp [GridIterator.stepB, GridIterator.next, h0, Direction.to_point,
          Point.LEFT_DOWN, Point.add]
        omega
      rw [hs]
      simp only [muB, inLineRem]
      omega
    · have hs : GridIterator.stepB g ⟨ls, cur, .LeftDown, k, cca, true⟩ =
          ⟨ls, cur, .LeftDown, k, cca, false⟩ := by
        simp [GridIterator.stepB, GridIterator.next, h0, GridIterator.brake]
      rw [hs]
      simp only [muB]
      omega
  case LeftUp =>
    cases h0 : g.exced_bounds cur .LeftUp k
    · have hc := (exced_lu_false g cur k).mp h0
      have hs : GridIterator.stepB g ⟨ls, cur, .LeftUp, k, cca, true⟩ =
          ⟨ls, ⟨cur.x - 1, cur.y - 1⟩, .LeftUp, k, cca, true⟩ := by
        simp [GridIterator.stepB, GridIterator.next, h0, Direction.to_point,
          Point.LEFT_UP, Point.add]
        omega
      rw [hs]
      simp only [muB, inLineRem]
      omega
    · have hs : GridIterator.stepB g ⟨ls, cur, .LeftUp, k, cca, true⟩ =
          ⟨ls, cur, .LeftUp, k, cca, false⟩ := by
        simp [GridIterator.stepB, GridIterator.next, h0, GridIterator.brake]
      rw [hs]
      simp only [muB]
      omega
  case Stop =>
    cases h0 : g.exced_bounds cur .Stop k
    · simp [Grid.exced_bounds] at h0
    · have hs : GridIterator.stepB g ⟨ls, cur, .Stop, k, cca, true⟩ =
          ⟨ls, cur, .Stop, k, cca, false⟩ := by
        simp [GridIterator.stepB, GridIterator.next, h0, GridIterator.brake]
      rw [hs]
      simp only [muB]
      omega

theorem halts_of_measure (step : GridIterator → GridIterator) (P : GridIterator → Prop)
    (mu : GridIterator → Nat)
    (hstep : ∀ s, P s → s.have_next = true → P (step s) ∧ mu (step s) < mu s) :
    ∀ s, P s → ∃ n, (step^[n] s).have_next = false := by
  have H : ∀ (m : Nat) (s : GridIterator), mu s ≤ m → P s →
      ∃ n, (step^[n] s).have_next = false := by
    intro m
    induction m with
    | zero =>
        intro s hm hP
        cases hn : s.have_next with
        | false => exact ⟨0, hn⟩
        | true =>
            have := (hstep s hP hn).2
            omega
    | succ m ih =>
        intro s hm hP
        cases hn : s.have_next with
        | false => exact ⟨0, hn⟩
        | true =>
            obtain ⟨hP2, hlt⟩ := hstep s hP hn
            obtain ⟨n, hend⟩ := ih (step s) (by omega) hP2
            exact ⟨n + 1, by rw [Function.iterate_succ_apply]; exact hend⟩
  intro s hP
  exact H (mu s) s le_rfl hP

theorem wrapInv_new (g : Grid T) (d : Direction) (k : Int) :
    wrapInv g (GridIterator.new g d k) := by
  cases d <;> intro _ <;>
    simp [GridIterator.new, Grid.get_starting_point, Direction.is_diagonal, Point.new]

theorem count_with_loop_stable (g : Grid T) (f : Grid T → Point → Point → Int → Bool)
    (step : Point) : ∀ (m : Nat) (s : GridIterator) (acc : Int),
    ((GridIterator.stepW g)^[m] s).have_next = false →
    ∀ fuel, m < fuel →
      GridIterator.count_with_loop g f step fuel s acc =
        GridIterator.count_with_loop g f step (m + 1) s acc := by
  intro m
  induction m with
  | zero =>
      intro s acc h0 fuel hf
      obtain ⟨fuel2, rfl⟩ : ∃ fuel2, fuel = fuel2 + 1 := ⟨fuel - 1, by omega⟩
      simp only [Function.iterate_zero, id_eq] at h0
      simp [GridIterator.count_with_loop, h0]
  | succ m ih =>
      intro s acc h0 fuel hf
      obtain ⟨fuel2, rfl⟩ : ∃ fuel2, fuel = fuel2 + 1 := ⟨fuel - 1, by omega⟩
      cases hn : s.have_next with
      | false => simp [GridIterator.count_with_loop, hn]
      | true =>
          rw [Function.iterate_succ_apply] at h0
          simp only [GridIterator.count_with_loop, hn, if_true]
          exact ih (s.stepW g) _ h0 fuel2 (by omega)

theorem count_loop_stable [DecidableEq T] [Inhabited T] (g : Grid T) (value : T) :
    ∀ (m : Nat) (s : GridIterator) (acc : Int),
    ((GridIterator.stepW g)^[m] s).have_next = false →
    ∀ fuel, m < fuel →
      GridIterator.count_loop g value fuel s acc =
        GridIterator.count_loop g value (m + 1) s acc := by
  intro m
  induction m with
  | zero =>
      intro s acc h0 fuel hf
      obtain ⟨fuel2, rfl⟩ : ∃ fuel2, fuel = fuel2 + 1 := ⟨fuel - 1, by omega⟩
      simp only [Function.iterate_zero, id_eq] at h0
      simp [GridIterator.count_loop, h0]
  | succ m ih =>
      intro s acc h0 fuel hf
      obtain ⟨fuel2, rfl⟩ : ∃ fuel2, fuel = fuel2 + 1 := ⟨fuel - 1, by omega⟩
      cases hn : s.have_next with
      | false => simp [GridIterator.count_loop, hn]
      | true =>
          rw [Function.iterate_succ_apply] at h0
          simp only [GridIterator.count_loop, hn, if_true]
          exact ih (s.stepW g) _ h0 fuel2 (by omega)

theorem find_loop_stable [DecidableEq T] [Inhabited T] (g : Grid T)
    (f : List T → T → Bool) (cand : List T) :
    ∀ (m : Nat) (s : GridIterator),
    ((GridIterator.stepW g)^[m] s).have_next = false →
    ∀ fuel, m < fuel →
      GridIterator.find_loop g f cand fuel s =
        GridIterator.find_loop g f cand (m + 1) s := by
  intro m
  induction m with
  | zero =>
      intro s h0 fuel hf
      obtain ⟨fuel2, rfl⟩ : ∃ fuel2, fuel = fuel2 + 1 := ⟨fuel - 1, by omega⟩
      simp only [Function.iterate_zero, id_eq] at h0
      simp [GridIterator.find_loop, h0]
  | succ m ih =>
      intro s h0 fuel hf
      obtain ⟨fuel2, rfl⟩ : ∃ fuel2, fuel = fuel2 + 1 := ⟨fuel - 1, by omega⟩
      cases hn : s.have_next with
      | false => simp [GridIterator.find_loop, hn]
      | true =>
          rw [Function.iterate_succ_apply] at h0
          simp only [GridIterator.find_loop, hn, if_true]
          cases hv : g.get_value s.current with
          | none => simp
          | some v =>
              cases hf2 : f cand v with
              | true => simp [hf2]
              | false =>
                  simp [hf2]
                  exact ih (s.stepW g) h0 fuel2 (by omega)

/-- Claim C6: for every grid with positive width and height, every
movement direction and every offset, repeated calls to `next` — in wrap
mode or bounded mode — reach `have_next = false` after finitely many
calls, so `count`, `count_with` and `find` on the fresh iterator return:
their result is stable once the fuel of the embedded loop is large
enough. -/
theorem every_scan_terminates (T : Type) [DecidableEq T] [Inhabited T] (g : Grid T)
    (d : Direction) (k : Int) (f : Grid T → Point → Point → Int → Bool) (value : T)
    (pf : List T → T → Bool) (cand : List T)
    (_hw : 0 < g.width) (_hh : 0 < g.height) (_hd : d ≠ .Stop) :
    (∃ n : Nat, ((GridIterator.stepW g)^[n] (GridIterator.new g d k)).have_next = false) ∧
    (∃ n : Nat, ((GridIterator.stepB g)^[n] (GridIterator.new g d k)).have_next = false) ∧
    (∃ N : Nat, ∀ fuel, N ≤ fuel →
      GridIterator.count_with g fuel f (GridIterator.new g d k) =
        GridIterator.count_with g N f (GridIterator.new g d k)) ∧
    (∃ N : Nat, ∀ fuel, N ≤ fuel →
      GridIterator.count g fuel value (GridIterator.new g d k) =
        GridIterator.count g N value (GridIterator.new g d k)) ∧
    (∃ N : Nat, ∀ fuel, N ≤ fuel →
      GridIterator.find g fuel pf cand (GridIterator.new g d k) =
        GridIterator.find g N pf cand (GridIterator.new g d k)) := by
  have hW : ∃ n : Nat,
      ((GridIterator.stepW g)^[n] (GridIterator.new g d k)).have_next = false :=
    halts_of_measure (GridIterator.stepW g) (wrapInv g) (muW g)
      (fun s hP hn => muW_decrease g s hP hn) (GridIterator.new g d k)
      (wrapInv_new g d k)
  obtain ⟨n, hend⟩ := hW
  refine ⟨⟨n, hend⟩, ?_, ?_, ?_, ?_⟩
  · exact halts_of_measure (GridIterator.stepB g) (fun _ => True) (muB g)
      (fun s _ hn => ⟨trivial, muB_decrease g s hn⟩) (GridIterator.new g d k) trivial
  · refine ⟨n + 1, fun fuel hf => ?_⟩
    simp only [GridIterator.count_with]
    rw [count_with_loop_stable g f _ n (GridIterator.new g d k) 0 hend fuel (by omega)]
  · refine ⟨n + 1, fun fuel hf => ?_⟩
    simp only [GridIterator.count]
    rw [count_loop_stable g value n (GridIterator.new g d k) 0 hend fuel (by omega)]
  · refine ⟨n + 1, fun fuel hf => ?_⟩
    simp only [GridIterator.find]
    rw [find_loop_stable g pf cand n (GridIterator.new g d k) hend fuel (by omega)]

/-- Claim C6 witness: termination applied to the concrete 3x3 grid with
direction Right and offset 1; the wrap iterate of the resulting bound is
halted, evaluated concretely. -/
theorem every_scan_terminates_witness :
    (0 : Int) < demoGrid3.width ∧ (0 : Int) < demoGrid3.height ∧
    ((Direction.Right : Direction) ≠ .Stop) ∧
    (∃ n : Nat,
      ((GridIterator.stepW demoGrid3)^[n]
        (GridIterator.new demoGrid3 .Right 1)).have_next = false) :=
  ⟨by decide, by decide, by decide,
   (every_scan_terminates (List Int) demoGrid3 .Right 1 (fun _ _ _ _ => true) []
      (fun _ _ => false) [] (by decide) (by decide) (by decide)).1⟩

/-! ## Lists of visited positions: segment and row lemmas -/

@[ext] theorem Point.ext {p q : Point} (hx : p.x = q.x) (hy : p.y = q.y) : p = q := by
  cases p; cases q; simp_all

theorem mem_intSegAux : ∀ (n : Nat) (a z : Int), z ∈ intSegAux n a ↔ a ≤ z ∧ z < a + n := by
  intro n
  induction n with
  | zero => intro a z; simp [intSegAux]
  | succ n ih =>
      intro a z
      simp only [intSegAux, List.mem_cons, ih (a + 1) z]
      push_cast
      constructor
      · rintro (rfl | h) <;> omega
      · intro h
        by_cases hz : z = a
        · exact Or.inl hz
        · exact Or.inr (by omega)

theorem nodup_intSegAux : ∀ (n : Nat) (a : Int), (intSegAux n a).Nodup := by
  intro n
  induction n with
  | zero => intro a; simp [intSegAux]
  | succ n ih =>
      intro a
      simp only [intSegAux, List.nodup_cons]
      refine ⟨?_, ih (a + 1)⟩
      rw [mem_intSegAux]
      omega

theorem mem_intSeg (z a b : Int) : z ∈ intSeg a b ↔ a ≤ z ∧ z ≤ b := by
  rw [intSeg, mem_intSegAux]
  omega

theorem nodup_intSeg (a b : Int) : (intSeg a b).Nodup := nodup_intSegAux _ a

theorem intSeg_nil (a b : Int) (h : b < a) : intSeg a b = [] := by
  rw [intSeg]
  have e : (b + 1 - a).toNat = 0 := by omega
  rw [e]
  rfl

theorem intSeg_cons (a b : Int) (h : a ≤ b) : intSeg a b = a :: intSeg (a + 1) b := by
  rw [intSeg, intSeg]
  have e : (b + 1 - a).toNat = (b + 1 - (a + 1)).toNat + 1 := by omega
  rw [e]
  rfl

theorem mem_rowPts (p : Point) (a b y : Int) :
    p ∈ rowPts a b y ↔ (a ≤ p.x ∧ p.x ≤ b ∧ p.y = y) := by
  simp only [rowPts, List.mem_map]
  constructor
  · rintro ⟨x, hx, rfl⟩
    rw [mem_intSeg] at hx
    exact ⟨hx.1, hx.2, rfl⟩
  · rintro ⟨h1, h2, h3⟩
    refine ⟨p.x, (mem_intSeg p.x a b).mpr ⟨h1, h2⟩, ?_⟩
    ext <;> simp [h3]

theorem nodup_rowPts (a b y : Int) : (rowPts a b y).Nodup := by
  refine List.Nodup.map ?_ (nodup_intSeg a b)
  intro i j hij
  simpa using congrArg Point.x hij

theorem rowPts_cons (a b y : Int) (h : a ≤ b) :
    rowPts a b y = ⟨a, y⟩ :: rowPts (a + 1) b y := by
  simp [rowPts, intSeg_cons a b h]

theorem rowPts_nil (a b y : Int) (h : b < a) : rowPts a b y = [] := by
  simp [rowPts, intSeg_nil a b h]

theorem mem_rowsFlatten (p : Point) (c d m : Int) :
    p ∈ ((intSeg c d).map (fun y => rowPts 0 m y)).flatten ↔
      (0 ≤ p.x ∧ p.x ≤ m ∧ c ≤ p.y ∧ p.y ≤ d) := by
  simp only [List.mem_flatten, List.mem_map]
  constructor
  · rintro ⟨L, ⟨y, hy, rfl⟩, hp⟩
    rw [mem_intSeg] at hy
    rw [mem_rowPts] at hp
    omega
  · intro h
    exact ⟨rowPts 0 m p.y, ⟨p.y, (mem_intSeg p.y c d).mpr ⟨h.2.2.1, h.2.2.2⟩, rfl⟩,
      (mem_rowPts p 0 m p.y).mpr ⟨h.1, h.2.1, rfl⟩⟩

theorem nodup_rowsFlatten (m : Int) : ∀ (n : Nat) (c d : Int), (d + 1 - c).toNat = n →
    (((intSeg c d).map (fun y => rowPts 0 m y)).flatten).Nodup := by
  intro n
  induction n with
  | zero =>
      intro c d h
      rw [intSeg_nil c d (by omega)]
      simp
  | succ n ih =>
      intro c d h
      rw [intSeg_cons c d (by omega)]
      simp only [List.map_cons, List.flatten_cons]
      refine List.Nodup.append (nodup_rowPts 0 m c) (ih (c + 1) d (by omega)) ?_
      intro p hp hp2
      rw [mem_rowPts] at hp
      rw [mem_rowsFlatten] at hp2
      omega

/-! ## The trace engine: a step specification determines the scan trace -/

theorem scanTrace_eq_of_spec (g : Grid T) (P : GridIterator → Prop)
    (E : GridIterator → List Point) (mu : GridIterator → Nat)
    (hstep : ∀ s, P s → s.have_next = true →
      P (s.stepW g) ∧ mu (s.stepW g) < mu s ∧ E s = s.current :: E (s.stepW g))
    (hstop : ∀ s, P s → s.have_next = false → E s = []) :
    ∀ (fuel : Nat) (s : GridIterator), P s → mu s < fuel →
      GridIterator.scanTrace g fuel s = E s := by
  intro fuel
  induction fuel with
  | zero => intro s _ h; omega
  | succ n ih =>
      intro s hP h
      cases hn : s.have_next with
      | false =>
          rw [hstop s hP hn]
          simp [GridIterator.scanTrace, hn]
      | true =>
          obtain ⟨hP2, hlt, hE⟩ := hstep s hP hn
          rw [hE]
          simp only [GridIterator.scanTrace, hn, if_true]
          rw [ih (s.stepW g) hP2 (by omega)]

/-! ## The exact visit list of a Right wrap scan -/

theorem right_spec_step (g : Grid T) (k : Int) (hk : 1 ≤ k) (hkw : k ≤ g.width)
    (s : GridIterator) (hI : rightInv g k s) (hn : s.have_next = true) :
    rightInv g k (s.stepW g) ∧ rightMu g k (s.stepW g) < rightMu g k s ∧
      rightE g k s = s.current :: rightE g k (s.stepW g) := by
  obtain ⟨ls, cur, d, kk, cca, hnn⟩ := s
  have hd2 : d = .Right := hI.1
  have hkk2 : kk = k := hI.2.1
  have hls2 : ls = ⟨0, cur.y⟩ := hI.2.2.1
  have hx0 : (0 : Int) ≤ cur.x := hI.2.2.2.1
  have hxw : cur.x ≤ g.width - k := by
    have h := hI.2.2.2.2.1
    rw [hkk2] at h
    exact h
  have hy0 : (0 : Int) ≤ cur.y := hI.2.2.2.2.2.1
  have hyh : cur.y < g.height := hI.2.2.2.2.2.2
  clear hI
  subst hd2
  have hkk3 : k = kk := hkk2.symm
  subst hkk3
  subst hls2
  have hn2 : hnn = true := hn
  subst hn2
  rcases stepW_right_shape g ⟨0, cur.y⟩ cur k cca with ⟨hc, hs⟩ | ⟨hc1, hc2, hs⟩ |
    ⟨hc1, hc2, hs⟩ <;> rw [hs]
  · refine ⟨⟨rfl, rfl, rfl, ?_, ?_, ?_, ?_⟩, ?_, ?_⟩
    · show (0 : Int) ≤ cur.x + 1
      omega
    · show cur.x + 1 ≤ g.width - k
      omega
    · show (0 : Int) ≤ cur.y
      omega
    · show cur.y < g.height
      omega
    · simp only [rightMu]
      omega
    · simp only [rightE]
      rw [rowPts_cons cur.x (g.width - k) cur.y (by omega)]
      simp [List.cons_append]
  · refine ⟨⟨rfl, rfl, rfl, ?_, ?_, ?_, ?_⟩, ?_, ?_⟩
    · show (0 : Int) ≤ (0 : Int)
      omega
    · show (0 : Int) ≤ g.width - k
      omega
    · show (0 : Int) ≤ cur.y + 1
      omega
    · show cur.y + 1 < g.height
      omega
    · simp only [rightMu]
      have e2 : ((g.width - k).toNat + 2) * (g.height - 1 - cur.y).toNat =
          ((g.width - k).toNat + 2) * (g.height - 1 - (cur.y + 1)).toNat +
          ((g.width - k).toNat + 2) := by
        have e1 : (g.height - 1 - cur.y).toNat =
            (g.height - 1 - (cur.y + 1)).toNat + 1 := by omega
        rw [e1]; ring
      omega
    · simp only [rightE]
      rw [rowPts_cons cur.x (g.width - k) cur.y (by omega),
        rowPts_nil (cur.x + 1) (g.width - k) cur.y (by omega),
        intSeg_cons (cur.y + 1) (g.height - 1) (by omega)]
      simp [List.cons_append]
  · refine ⟨⟨rfl, rfl, rfl, hx0, hxw, hy0, hyh⟩, ?_, ?_⟩
    · simp only [rightMu]
      omega
    · simp only [rightE]
      rw [rowPts_cons cur.x (g.width - k) cur.y (by omega),
        rowPts_nil (cur.x + 1) (g.width - k) cur.y (by omega),
        intSeg_nil (cur.y + 1) (g.height - 1) (by omega)]
      simp

theorem rightInv_new (g : Grid T) (k : Int) (hk : 1 ≤ k) (hkw : k ≤ g.width)
    (hh : 0 < g.height) : rightInv g k (GridIterator.new g .Right k) := by
  refine ⟨rfl, rfl, rfl, le_refl 0, ?_, le_refl 0, ?_⟩
  · show (0 : Int) ≤ g.width - k
    omega
  · show (0 : Int) < g.height
    omega

theorem right_core (g : Grid T) (k : Int) (hk : 1 ≤ k) (hkw : k ≤ g.width)
    (hw : 0 < g.width) (hh : 0 < g.height) (fuel : Nat)
    (hfuel : (g.width.toNat + 2) * (g.height.toNat + 2) ≤ fuel) :
    GridIterator.scanTrace g fuel (GridIterator.new g .Right k) = rightFull g k := by
  have hMu : rightMu g k (GridIterator.new g .Right k) < fuel := by
    have hval : rightMu g k (GridIterator.new g .Right k) =
        1 + (g.width - k - 0).toNat +
          ((g.width - k).toNat + 2) * (g.height - 1 - 0).toNat := by
      simp only [rightMu, GridIterator.new, Grid.get_starting_point, Point.new]
    rw [hval]
    have p1 : ((g.width - k).toNat + 2) * (g.height - 1 - 0).toNat ≤
        (g.width.toNat + 2) * g.height.toNat :=
      Nat.mul_le_mul (by omega) (by omega)
    have p2 : (g.width.toNat + 2) * (g.height.toNat + 2) =
        (g.width.toNat + 2) * g.height.toNat + 2 * (g.width.toNat + 2) := by ring
    omega
  have hTrace := scanTrace_eq_of_spec g (rightInv g k) (rightE g k) (rightMu g k)
    (fun s hP hn => right_spec_step g k hk hkw s hP hn)
    (fun s _ hn => by simp [rightE, hn]) fuel (GridIterator.new g .Right k)
    (rightInv_new g k hk hkw hh) hMu
  rw [hTrace]
  simp only [rightE, rightFull, GridIterator.new, Grid.get_starting_point, Point.new]
  rw [intSeg_cons 0 (g.height - 1) (by omega)]
  simp

theorem windowFits_right (g : Grid T) (n : Nat) : ∀ (p : Point),
    (g.windowFits .Right p n = true) ↔
      (n = 0 ∨ (0 ≤ p.x ∧ p.x + n ≤ g.width ∧ 0 ≤ p.y ∧ p.y < g.height)) := by
  induction n with
  | zero => intro p; simp [Grid.windowFits]
  | succ n ih =>
      intro p
      simp only [Grid.windowFits, Bool.and_eq_true]
      rw [ih (p.add (Direction.to_point .Right))]
      simp only [Grid.contains, Bool.and_eq_true, decide_eq_true_eq, Direction.to_point,
        Point.RIGHT, Point.add]
      omega

theorem validStart_right_iff (g : Grid T) (k : Int) (hk : 1 ≤ k) (p : Point) :
    (g.validStart .Right k p = true) ↔
      (0 ≤ p.x ∧ p.x + k ≤ g.width ∧ 0 ≤ p.y ∧ p.y < g.height) := by
  rw [Grid.validStart, windowFits_right]
  omega

theorem mem_rightFull (g : Grid T) (k : Int) (p : Point) :
    p ∈ rightFull g k ↔
      (0 ≤ p.x ∧ p.x ≤ g.width - k ∧ 0 ≤ p.y ∧ p.y ≤ g.height - 1) := by
  rw [rightFull]
  exact mem_rowsFlatten p 0 (g.height - 1) (g.width - k)

theorem nodup_rightFull (g : Grid T) (k : Int) : (rightFull g k).Nodup := by
  rw [rightFull]
  exact nodup_rowsFlatten (g.width - k) (g.height - 1 + 1 - 0).toNat 0 (g.height - 1) rfl

/-! ## Conjugating Left, Down and Up scans into Right scans -/

theorem stepW_left_conj (g : Grid T) (ls cur : Point) (k : Int) (cca : Bool) :
    GridIterator.stepW g ⟨mirrorLR g ls, mirrorLR g cur, .Right, k, cca, true⟩ =
      GridIterator.mapState (mirrorLR g) .Right
        (GridIterator.stepW g ⟨ls, cur, .Left, k, cca, true⟩) := by
  rcases stepW_left_shape g ls cur k cca with ⟨h1, hs⟩ | ⟨h1, h2, hs⟩ | ⟨h1, h2, hs⟩
  · rcases stepW_right_shape g (mirrorLR g ls) (mirrorLR g cur) k cca with
      ⟨h1b, hsb⟩ | ⟨h1b, h2b, hsb⟩ | ⟨h1b, h2b, hsb⟩
    · rw [hs, hsb]
      simp [GridIterator.mapState, mirrorLR, GridIterator.mk.injEq, Point.mk.injEq]
      omega
    · exfalso
      simp only [mirrorLR] at h1b
      omega
    · exfalso
      simp only [mirrorLR] at h1b
      omega
  · rcases stepW_right_shape g (mirrorLR g ls) (mirrorLR g cur) k cca with
      ⟨h1b, hsb⟩ | ⟨h1b, h2b, hsb⟩ | ⟨h1b, h2b, hsb⟩
    · exfalso
      simp only [mirrorLR] at h1b
      omega
    · rw [hs, hsb]
      simp [GridIterator.mapState, mirrorLR, GridIterator.mk.injEq, Point.mk.injEq]
      omega
    · exfalso
      simp only [mirrorLR] at h2b
      omega
  · rcases stepW_right_shape g (mirrorLR g ls) (mirrorLR g cur) k cca with
      ⟨h1b, hsb⟩ | ⟨h1b, h2b, hsb⟩ | ⟨h1b, h2b, hsb⟩
    · exfalso
      simp only [mirrorLR] at h1b
      omega
    · exfalso
      simp only [mirrorLR] at h2b
      omega
    · rw [hs, hsb]
      simp [GridIterator.mapState, mirrorLR]

theorem stepW_down_conj (g : Grid T) (ls cur : Point) (k : Int) (cca : Bool) :
    GridIterator.stepW (g.transposed) ⟨transposePt ls, transposePt cur, .Right, k, cca, true⟩ =
      GridIterator.mapState transposePt .Right
        (GridIterator.stepW g ⟨ls, cur, .Down, k, cca, true⟩) := by
  rcases stepW_down_shape g ls cur k cca with ⟨h1, hs⟩ | ⟨h1, h2, hs⟩ | ⟨h1, h2, hs⟩
  · rcases stepW_right_shape (g.transposed) (transposePt ls) (transposePt cur) k cca with
      ⟨h1b, hsb⟩ | ⟨h1b, h2b, hsb⟩ | ⟨h1b, h2b, hsb⟩
    · rw [hs, hsb]
      simp [GridIterator.mapState, transposePt, GridIterator.mk.injEq, Point.mk.injEq] <;>
        omega
    · exfalso
      simp only [Grid.transposed, transposePt] at h1b
      omega
    · exfalso
      simp only [Grid.transposed, transposePt] at h1b
      omega
  · rcases stepW_right_shape (g.transposed) (transposePt ls) (transposePt cur) k cca with
      ⟨h1b, hsb⟩ | ⟨h1b, h2b, hsb⟩ | ⟨h1b, h2b, hsb⟩
    · exfalso
      simp only [Grid.transposed, transposePt] at h1b
      omega
    · rw [hs, hsb]
      simp [GridIterator.mapState, transposePt, GridIterator.mk.injEq, Point.mk.injEq] <;>
        omega
    · exfalso
      simp only [Grid.transposed, transposePt] at h2b
      omega
  · rcases stepW_right_shape (g.transposed) (transposePt ls) (transposePt cur) k cca with
      ⟨h1b, hsb⟩ | ⟨h1b, h2b, hsb⟩ | ⟨h1b, h2b, hsb⟩
    · exfalso
      simp only [Grid.transposed, transposePt] at h1b
      omega
    · exfalso
      simp only [Grid.transposed, transposePt] at h2b
      omega
    · rw [hs, hsb]
      simp [GridIterator.mapState, transposePt]

theorem stepW_up_conj (g : Grid T) (ls cur : Point) (k : Int) (cca : Bool) :
    GridIterator.stepW (g.transposed) ⟨upMap g ls, upMap g cur, .Right, k, cca, true⟩ =
      GridIterator.mapState (upMap g) .Right
        (GridIterator.stepW g ⟨ls, cur, .Up, k, cca, true⟩) := by
  rcases stepW_up_shape g ls cur k cca with ⟨h1, hs⟩ | ⟨h1, h2, hs⟩ | ⟨h1, h2, hs⟩
  · rcases stepW_right_shape (g.transposed) (upMap g ls) (upMap g cur) k cca with
      ⟨h1b, hsb⟩ | ⟨h1b, h2b, hsb⟩ | ⟨h1b, h2b, hsb⟩
    · rw [hs, hsb]
      simp [GridIterator.mapState, upMap, GridIterator.mk.injEq, Point.mk.injEq] <;>
        omega
    · exfalso
      simp only [Grid.transposed, upMap] at h1b
      omega
    · exfalso
      simp only [Grid.transposed, upMap] at h1b
      omega
  · rcases stepW_right_shape (g.transposed) (upMap g ls) (upMap g cur) k cca with
      ⟨h1b, hsb⟩ | ⟨h1b, h2b, hsb⟩ | ⟨h1b, h2b, hsb⟩
    · exfalso
      simp only [Grid.transposed, upMap] at h1b
      omega
    · rw [hs, hsb]
      simp [GridIterator.mapState, upMap, GridIterator.mk.injEq, Point.mk.injEq] <;>
        omega
    · exfalso
      simp only [Grid.transposed, upMap] at h2b
      omega
  · rcases stepW_right_shape (g.transposed) (upMap g ls) (upMap g cur) k cca with
      ⟨h1b, hsb⟩ | ⟨h1b, h2b, hsb⟩ | ⟨h1b, h2b, hsb⟩
    · exfalso
      simp only [Grid.transposed, upMap] at h1b
      omega
    · exfalso
      simp only [Grid.transposed, upMap] at h2b
      omega
    · rw [hs, hsb]
      simp [GridIterator.mapState, upMap]

/-- Generic conjugation: if a point map intertwines one wrap step for
direction `d` with a `.Right` wrap step on another grid, it intertwines
whole scan traces. -/
theorem scanTrace_map_conj (g g2 : Grid T) (φ : Point → Point) (d : Direction)
    (hconj : ∀ (ls cur : Point) (k : Int) (cca : Bool),
      GridIterator.stepW g2 ⟨φ ls, φ cur, .Right, k, cca, true⟩ =
        GridIterator.mapState φ .Right (GridIterator.stepW g ⟨ls, cur, d, k, cca, true⟩)) :
    ∀ (fuel : Nat) (s : GridIterator), s.direction = d →
      GridIterator.scanTrace g2 fuel (GridIterator.mapState φ .Right s) =
        (GridIterator.scanTrace g fuel s).map φ := by
  intro fuel
  induction fuel with
  | zero => intro s _; rfl
  | succ n ih =>
      intro s hd
      obtain ⟨ls, cur, d2, k, cca, hn⟩ := s
      have hd2 : d2 = d := hd
      have hd3 : d = d2 := hd2.symm
      subst hd3
      cases hn with
      | false => simp [GridIterator.scanTrace, GridIterator.mapState]
      | true =>
          have key1 : GridIterator.scanTrace g2 (n + 1)
              ⟨φ ls, φ cur, .Right, k, cca, true⟩ =
              φ cur :: GridIterator.scanTrace g2 n
                (GridIterator.stepW g2 ⟨φ ls, φ cur, .Right, k, cca, true⟩) := by
            simp [GridIterator.scanTrace]
          have key2 : GridIterator.scanTrace g (n + 1)
              (⟨ls, cur, d, k, cca, true⟩ : GridIterator) =
              cur :: GridIterator.scanTrace g n
                (GridIterator.stepW g ⟨ls, cur, d, k, cca, true⟩) := by
            simp [GridIterator.scanTrace]
          have hdir : (GridIterator.stepW g ⟨ls, cur, d, k, cca, true⟩).direction = d :=
            stepW_direction g _
          show GridIterator.scanTrace g2 (n + 1) ⟨φ ls, φ cur, .Right, k, cca, true⟩ =
            (GridIterator.scanTrace g (n + 1) ⟨ls, cur, d, k, cca, true⟩).map φ
          rw [key1, key2, List.map_cons, hconj ls cur k cca, ih _ hdir]

theorem mapState_left_init (g : Grid T) (k : Int) :
    GridIterator.mapState (mirrorLR g) .Right (GridIterator.new g .Left k) =
      GridIterator.new g .Right k := by
  simp [GridIterator.mapState, GridIterator.new, Grid.get_starting_point, mirrorLR,
    Point.new, Direction.is_diagonal, GridIterator.mk.injEq, Point.mk.injEq] <;> omega

theorem mapState_down_init (g : Grid T) (k : Int) :
    GridIterator.mapState transposePt .Right (GridIterator.new g .Down k) =
      GridIterator.new (g.transposed) .Right k := by
  simp [GridIterator.mapState, GridIterator.new, Grid.get_starting_point, transposePt,
    Grid.transposed, Point.new, Direction.is_diagonal, GridIterator.mk.injEq,
    Point.mk.injEq] <;> omega

theorem mapState_up_init (g : Grid T) (k : Int) :
    GridIterator.mapState (upMap g) .Right (GridIterator.new g .Up k) =
      GridIterator.new (g.transposed) .Right k := by
  simp [GridIterator.mapState, GridIterator.new, Grid.get_starting_point, upMap,
    Grid.transposed, Point.new, Direction.is_diagonal, GridIterator.mk.injEq,
    Point.mk.injEq] <;> omega

theorem mirrorLR_inj (g : Grid T) : Function.Injective (mirrorLR g) := by
  intro p q h
  have hx := congrArg Point.x h
  have hy := congrArg Point.y h
  simp only [mirrorLR] at hx hy
  exact Point.ext (by omega) (by omega)

theorem transposePt_inj : Function.Injective transposePt := by
  intro p q h
  have hx := congrArg Point.x h
  have hy := congrArg Point.y h
  simp only [transposePt] at hx hy
  exact Point.ext hy hx

theorem upMap_inj (g : Grid T) : Function.Injective (upMap g) := by
  intro p q h
  have hx := congrArg Point.x h
  have hy := congrArg Point.y h
  simp only [upMap] at hx hy
  exact Point.ext (by omega) (by omega)

theorem windowFits_left (g : Grid T) (n : Nat) : ∀ (p : Point),
    (g.windowFits .Left p n = true) ↔
      (n = 0 ∨ (0 ≤ p.x - n + 1 ∧ p.x < g.width ∧ 0 ≤ p.y ∧ p.y < g.height)) := by
  induction n with
  | zero => intro p; simp [Grid.windowFits]
  | succ n ih =>
      intro p
      simp only [Grid.windowFits, Bool.and_eq_true]
      rw [ih (p.add (Direction.to_point .Left))]
      simp only [Grid.contains, Bool.and_eq_true, decide_eq_true_eq, Direction.to_point,
        Point.LEFT, Point.add]
      omega

theorem windowFits_down (g : Grid T) (n : Nat) : ∀ (p : Point),
    (g.windowFits .Down p n = true) ↔
      (n = 0 ∨ (0 ≤ p.x ∧ p.x < g.width ∧ 0 ≤ p.y ∧ p.y + n ≤ g.height)) := by
  induction n with
  | zero => intro p; simp [Grid.windowFits]
  | succ n ih =>
      intro p
      simp only [Grid.windowFits, Bool.and_eq_true]
      rw [ih (p.add (Direction.to_point .Down))]
      simp only [Grid.contains, Bool.and_eq_true, decide_eq_true_eq, Direction.to_point,
        Point.DOWN, Point.add]
      omega

theorem windowFits_up (g : Grid T) (n : Nat) : ∀ (p : Point),
    (g.windowFits .Up p n = true) ↔
      (n = 0 ∨ (0 ≤ p.x ∧ p.x < g.width ∧ 0 ≤ p.y - n + 1 ∧ p.y < g.height)) := by
  induction n with
  | zero => intro p; simp [Grid.windowFits]
  | succ n ih =>
      intro p
      simp only [Grid.windowFits, Bool.and_eq_true]
      rw [ih (p.add (Direction.to_point .Up))]
      simp only [Grid.contains, Bool.and_eq_true, decide_eq_true_eq, Direction.to_point,
        Point.UP, Point.add]
      omega

theorem validStart_left_iff (g : Grid T) (k : Int) (hk : 1 ≤ k) (p : Point) :
    (g.validStart .Left k p = true) ↔
      (k - 1 ≤ p.x ∧ p.x < g.width ∧ 0 ≤ p.y ∧ p.y < g.height) := by
  rw [Grid.validStart, windowFits_left]
  omega

theorem validStart_down_iff (g : Grid T) (k : Int) (hk : 1 ≤ k) (p : Point) :
    (g.validStart .Down k p = true) ↔
      (0 ≤ p.x ∧ p.x < g.width ∧ 0 ≤ p.y ∧ p.y + k ≤ g.height) := by
  rw [Grid.validStart, windowFits_down]
  omega

theorem validStart_up_iff (g : Grid T) (k : Int) (hk : 1 ≤ k) (p : Point) :
    (g.validStart .Up k p = true) ↔
      (0 ≤ p.x ∧ p.x < g.width ∧ k - 1 ≤ p.y ∧ p.y < g.height) := by
  rw [Grid.validStart, windowFits_up]
  omega

theorem wrap_scan_diagonal_counterexample :
    ((⟨0, 1⟩ : Point) ∈ GridIterator.scanTrace demoGrid2 10
        (GridIterator.new demoGrid2 .RightDown 2)) ∧
      demoGrid2.validStart .RightDown 2 ⟨0, 1⟩ = false := by decide

/-- C1: Amended. In wrap-around mode with an orthogonal direction (`Right`,
`Left`, `Down` or `Up`) and offset `k` between 1 and the extent of the
grid along the movement axis, the scan visits exactly the positions from
which a window of `k` cells in that direction fits inside the grid, each
exactly once. The original claim, which asserted this for every movement
direction, is false for the diagonal directions: with direction
`RightDown` and offset 2 on a 2x2 grid the scan visits (0,1), where no
2-cell diagonal window fits (see the counterexample). -/
theorem wrap_scan_orthogonal_exact (g : Grid T) (d : Direction) (k : Int) (fuel : Nat)
    (hw : 0 < g.width) (hh : 0 < g.height) (hk : 1 ≤ k)
    (hd : ((d = .Right ∨ d = .Left) ∧ k ≤ g.width) ∨
          ((d = .Down ∨ d = .Up) ∧ k ≤ g.height))
    (hfuel : (g.width.toNat + 2) * (g.height.toNat + 2) ≤ fuel) :
    (GridIterator.scanTrace g fuel (GridIterator.new g d k)).Nodup ∧
      ∀ p : Point, (p ∈ GridIterator.scanTrace g fuel (GridIterator.new g d k) ↔
        g.validStart d k p = true) := by
  rcases hd with ⟨hdir, hkb⟩ | ⟨hdir, hkb⟩
  · rcases hdir with hdir | hdir <;> subst hdir
    · rw [right_core g k hk hkb hw hh fuel hfuel]
      refine ⟨nodup_rightFull g k, ?_⟩
      intro p
      rw [mem_rightFull, validStart_right_iff g k hk]
      omega
    · have hmap := scanTrace_map_conj g g (mirrorLR g) .Left (stepW_left_conj g) fuel
        (GridIterator.new g .Left k) rfl
      rw [mapState_left_init, right_core g k hk hkb hw hh fuel hfuel] at hmap
      constructor
      · have hnd := nodup_rightFull g k
        rw [hmap] at hnd
        exact hnd.of_map
      · intro p
        have h1 : p ∈ GridIterator.scanTrace g fuel (GridIterator.new g .Left k) ↔
            mirrorLR g p ∈ rightFull g k := by
          rw [hmap]
          exact (List.mem_map_of_injective (mirrorLR_inj g)).symm
        rw [h1, mem_rightFull, validStart_left_iff g k hk]
        simp only [mirrorLR]
        omega
  · have hkw2 : k ≤ (g.transposed).width := hkb
    have hw2 : 0 < (g.transposed).width := hh
    have hh2 : 0 < (g.transposed).height := hw
    have hfuel2 :
        ((g.transposed).width.toNat + 2) * ((g.transposed).height.toNat + 2) ≤ fuel := by
      show (g.height.toNat + 2) * (g.width.toNat + 2) ≤ fuel
      rw [Nat.mul_comm]
      exact hfuel
    rcases hdir with hdir | hdir <;> subst hdir
    · have hmap := scanTrace_map_conj g (g.transposed) transposePt .Down (stepW_down_conj g)
        fuel (GridIterator.new g .Down k) rfl
      rw [mapState_down_init, right_core (g.transposed) k hk hkw2 hw2 hh2 fuel hfuel2] at hmap
      constructor
      · have hnd := nodup_rightFull (g.transposed) k
        rw [hmap] at hnd
        exact hnd.of_map
      · intro p
        have h1 : p ∈ GridIterator.scanTrace g fuel (GridIterator.new g .Down k) ↔
            transposePt p ∈ rightFull (g.transposed) k := by
          rw [hmap]
          exact (List.mem_map_of_injective transposePt_inj).symm
        rw [h1, mem_rightFull, validStart_down_iff g k hk]
        simp only [Grid.transposed, transposePt]
        omega
    · have hmap := scanTrace_map_conj g (g.transposed) (upMap g) .Up (stepW_up_conj g)
        fuel (GridIterator.new g .Up k) rfl
      rw [mapState_up_init, right_core (g.transposed) k hk hkw2 hw2 hh2 fuel hfuel2] at hmap
      constructor
      · have hnd := nodup_rightFull (g.transposed) k
        rw [hmap] at hnd
        exact hnd.of_map
      · intro p
        have h1 : p ∈ GridIterator.scanTrace g fuel (GridIterator.new g .Up k) ↔
            upMap g p ∈ rightFull (g.transposed) k := by
          rw [hmap]
          exact (List.mem_map_of_injective (upMap_inj g)).symm
        rw [h1, mem_rightFull, validStart_up_iff g k hk]
        simp only [Grid.transposed, upMap]
        omega

theorem wrap_scan_orthogonal_exact_witness :
    (GridIterator.scanTrace demoGrid3 25 (GridIterator.new demoGrid3 .Down 2)).Nodup ∧
      ∀ p : Point, (p ∈ GridIterator.scanTrace demoGrid3 25
          (GridIterator.new demoGrid3 .Down 2) ↔
        demoGrid3.validStart .Down 2 p = true) :=
  wrap_scan_orthogonal_exact demoGrid3 .Down 2 25 (by decide) (by decide) (by decide)
    (Or.inr ⟨Or.inl rfl, by decide⟩) (by decide)

theorem seqOpts_eq_none : ∀ (l : List (Option T)), seqOpts l = none ↔ none ∈ l := by
  intro l
  induction l with
  | nil => simp [seqOpts]
  | cons o os ih =>
      cases o with
      | none => simp [seqOpts]
      | some t =>
          cases h : seqOpts os with
          | none =>
              simp only [seqOpts, h, List.mem_cons]
              constructor
              · intro _
                exact Or.inr (ih.mp h)
              · intro _
                trivial
          | some ts =>
              have hno : ¬ (none ∈ os) := by
                intro hm
                have hn := ih.mpr hm
                rw [hn] at h
                cases h
              simp only [seqOpts, h, List.mem_cons]
              constructor
              · intro hh
                cases hh
              · rintro (hh | hh)
                · cases hh
                · exact absurd hh hno

/-- C9: Confirmed against the spec-modelled `Grid::parse` (the function is
described in spec section 6 but absent from src/). Parsing fails with a
recoverable error value exactly when some parsed line's element count
differs from the first line's, or some token / character fails conversion;
on success the grid's width is the first line's element count and its
height is the number of lines. -/
theorem grid_parse_error_exactly (fromTok : List Char → Option T)
    (fromChr : Char → Option T) (text : List Char) (delimiter : Option Char) :
    ((∃ e, Grid.parse fromTok fromChr text delimiter = .error e) ↔
      ((¬ ∀ r ∈ parseRows fromTok fromChr delimiter text,
          r.length = ((parseRows fromTok fromChr delimiter text).headD []).length) ∨
       (∃ r ∈ parseRows fromTok fromChr delimiter text, none ∈ r))) ∧
    (∀ g : Grid T, Grid.parse fromTok fromChr text delimiter = .ok g →
      g.width = (((parseRows fromTok fromChr delimiter text).headD []).length : Int) ∧
      g.height = ((parseRows fromTok fromChr delimiter text).length : Int)) := by
  constructor
  · constructor
    · rintro ⟨e, he⟩
      simp only [Grid.parse] at he
      split at he
      · right
        cases hseq : seqOpts ((parseRows fromTok fromChr delimiter text).map seqOpts) with
        | none =>
            have hmem : none ∈ (parseRows fromTok fromChr delimiter text).map seqOpts :=
              (seqOpts_eq_none _).mp hseq
            obtain ⟨r, hr, hrn⟩ := List.mem_map.mp hmem
            exact ⟨r, hr, (seqOpts_eq_none r).mp hrn⟩
        | some c =>
            simp only [hseq] at he
            cases he
      · left
        intro hforall
        rename_i hall
        apply hall
        rw [List.all_eq_true]
        intro r hr
        simp only [decide_eq_true_eq]
        exact hforall r hr
    · intro h
      simp only [Grid.parse]
      split
      · cases hseq : seqOpts ((parseRows fromTok fromChr delimiter text).map seqOpts) with
        | none =>
            refine ⟨.conversionFailed, ?_⟩
            simp only [hseq]
        | some c =>
            exfalso
            rename_i hall
            rcases h with h | ⟨r, hr, hrn⟩
            · apply h
              intro r hr
              have hx := List.all_eq_true.mp hall r hr
              simpa using hx
            · have h1 : seqOpts r = none := (seqOpts_eq_none r).mpr hrn
              have h2 : none ∈ (parseRows fromTok fromChr delimiter text).map seqOpts :=
                List.mem_map.mpr ⟨r, hr, h1⟩
              have h3 := (seqOpts_eq_none _).mpr h2
              rw [hseq] at h3
              cases h3
      · exact ⟨.widthInconsistent, rfl⟩
  · intro g hg
    simp only [Grid.parse] at hg
    split at hg
    · cases hseq : seqOpts ((parseRows fromTok fromChr delimiter text).map seqOpts) with
      | none =>
          simp only [hseq] at hg
          cases hg
      | some c =>
          simp only [hseq] at hg
          cases hg
          exact ⟨rfl, rfl⟩
    · cases hg
